import Mathlib

/-!
Verification of the subtitle-utilities proof-of-concept
(`src/proof_of_concept/__main__.py`).

The development shallowly embeds the core logic of the program:
language identity (`Language`, `Language.from_string`), stream
classification (`load_stream`), the external-subtitle catalog
(`build_subtitle_map`, `get_subtitle_path`), the gap analysis
(`missing_languages`, lines 258-261 of the source), and the ffmpeg
command construction performed in `Analyser.__init__`
(lines 266-322, `buildCommand` below).

External collaborators are modelled as data:
* the `iso639` package's language registry is modelled by a finite
  table `iso639Table` of canonical records, looked up by display name,
  two-letter code, terminology code or bibliographic code exactly as
  `iso639.languages.get(**{key: token})` is called in the source;
* Python's builtin `hash` on strings is modelled by `pyHashString`, a
  concrete deterministic string hash (Python's hash is an opaque
  deterministic function of the string; only determinism and
  functionality are used);
* filesystem, subprocess and prompt interaction are out of scope, so a
  `Movie` carries the data the analysed code reads: its display name
  and its probed stream list.
-/

namespace SubUtil

/-- One canonical record of the ISO-639 registry, as exposed by the
`iso639` package: two-letter code, terminology code, bibliographic
code, display name. -/
structure LangRecord where
  part1 : String
  part2t : String
  part2b : String
  name : String
deriving DecidableEq, Repr

/-- Finite model of the `iso639.languages` registry (a representative
fragment; lookups behave exactly like the package's keyed `get`). -/
def iso639Table : List LangRecord :=
  [⟨"en", "eng", "eng", "English"⟩,
   ⟨"ja", "jpn", "jpn", "Japanese"⟩,
   ⟨"fr", "fra", "fre", "French"⟩,
   ⟨"de", "deu", "ger", "German"⟩,
   ⟨"es", "spa", "spa", "Spanish"⟩]

/-- The four keyword arguments `Language.from_string` tries, in source
order: `name`, `part1`, `part2t`, `part2b`. -/
inductive Iso639Key where
  | name
  | part1
  | part2t
  | part2b
deriving DecidableEq, Repr

/-- Field selected by a keyword argument. -/
def Iso639Key.field : Iso639Key → LangRecord → String
  | .name, r => r.name
  | .part1, r => r.part1
  | .part2t, r => r.part2t
  | .part2b, r => r.part2b

/-- `iso639.languages.get(**{key: token})`: exact-match lookup of the
token under the given key; the package's `KeyError` on a miss is
modelled as `none` (the caller catches it). -/
def iso639get (k : Iso639Key) (token : String) : Option LangRecord :=
  iso639Table.find? (fun r => k.field r == token)

/-- The `Language` value class of the source: the four fields copied
from the resolved registry record. -/
structure Language where
  part1 : String
  part2t : String
  part2b : String
  name : String
deriving DecidableEq, Repr

/-- `Language.__str__`: the display name. -/
def Language.toStr (l : Language) : String := l.name

/-- `Language.__repr__`: the string `<Language {name}>`. -/
def Language.pyRepr (l : Language) : String :=
  "<Language " ++ l.toStr ++ ">"

/-- Model of Python's builtin `hash` on strings: a concrete
deterministic hash (64-bit polynomial fold).  Stands in for the opaque
deterministic string hash of the Python runtime. -/
def pyHashString (s : String) : Nat :=
  s.data.foldl (fun h c => (h * 31 + c.toNat) % (2 ^ 64)) 5381

/-- `Language.__hash__`: `hash(repr(self))`. -/
def Language.pyHash (l : Language) : Nat :=
  pyHashString l.pyRepr

/-- `Language.__eq__`: same type and equal hashes.  (Comparison with a
non-`Language` value, e.g. `None`, is `False`; see `optPyEq`.) -/
def Language.pyEq (a b : Language) : Bool :=
  a.pyHash == b.pyHash

/-- Python `==` on optional `Language` values as the source uses them:
`None == None` is `True`, `None` never equals a `Language`, and two
`Language` values compare by `Language.__eq__`. -/
def optPyEq : Option Language → Option Language → Bool
  | none, none => true
  | some a, some b => a.pyEq b
  | _, _ => false

/-- The loop body of `Language.from_string`: try the keys in order,
returning the first record a lookup finds; `KeyError` makes the loop
continue; falling off the loop returns `None`. -/
def resolveGo : List Iso639Key → String → Option LangRecord
  | [], _ => none
  | k :: rest, s =>
    match iso639get k s with
    | some r => some r
    | none => resolveGo rest s

/-- The registry record `Language.from_string` resolves a token to
(the loop over `['name', 'part1', 'part2t', 'part2b']`). -/
def Language.resolveRecord (s : String) : Option LangRecord :=
  resolveGo [Iso639Key.name, Iso639Key.part1, Iso639Key.part2t, Iso639Key.part2b] s

/-- The `Language` built from a registry record (the constructor call
at the end of `Language.from_string`). -/
def mkLanguage (r : LangRecord) : Language :=
  ⟨r.part1, r.part2t, r.part2b, r.name⟩

/-- `Language.from_string` (source lines 60-73). -/
def Language.from_string (s : String) : Option Language :=
  (Language.resolveRecord s).map mkLanguage

/-- `DEFAULT_LANGUAGE = Language.from_string('eng')` (source line 76). -/
def DEFAULT_LANGUAGE : Option Language :=
  Language.from_string "eng"

/-- `CodecType` enum of the source. -/
inductive CodecType where
  | Audio
  | Video
  | Subtitle
deriving DecidableEq, Repr

/-- `CodecType(value)`: the enum constructor lookup; an unknown value
raises `ValueError`, modelled as `none`. -/
def codecTypeOfString : String → Option CodecType
  | "audio" => some CodecType.Audio
  | "video" => some CodecType.Video
  | "subtitle" => some CodecType.Subtitle
  | _ => none

/-- The `Stream` class of the source. -/
structure Stream where
  index : Int
  codec_name : String
  codec_type : CodecType
  language : Option Language
  attached_pic : Bool
deriving DecidableEq, Repr

/-- `Stream.is_valid_subtitle` (source lines 94-96). -/
def Stream.is_valid_subtitle (s : Stream) : Bool :=
  s.codec_type == CodecType.Subtitle &&
    (s.codec_name == "ass" || s.codec_name == "dvd_subtitle" ||
     s.codec_name == "ssa" || s.codec_name == "subrip")

/-- `Stream.is_valid_stream` (source lines 98-100). -/
def Stream.is_valid_stream (s : Stream) : Bool :=
  s.codec_type == CodecType.Audio || s.codec_type == CodecType.Video ||
    s.is_valid_subtitle

/-- A raw per-stream record of the probe report, with exactly the keys
`load_stream` reads: the three required top-level fields, the
`language` entry of the optional `tags` block, and the `attached_pic`
entry of the optional `disposition` block (an integer whose
truthiness is taken). -/
structure StreamJson where
  index : Option Int
  codec_name : Option String
  codec_type : Option String
  tags_language : Option String
  disposition_attached_pic : Option Int
deriving DecidableEq, Repr

/-- The errors `load_stream` can raise: `KeyError` on a missing
required field, `ValueError` from the `CodecType` constructor.  The
spec groups both as `ValidationError`. -/
inductive LoadError where
  | missingField (field : String)
  | invalidCodecType (value : String)
deriving DecidableEq, Repr

/-- `load_stream` (source lines 103-116).  Field accesses happen in
the argument order of the `Stream(...)` call: `index`, `codec_name`,
`codec_type`. -/
def load_stream (j : StreamJson) : Except LoadError Stream :=
  let attached_pic := (j.disposition_attached_pic.getD 0) != 0
  let language : Option Language :=
    match j.tags_language with
    | none => none
    | some s => Language.from_string s
  match j.index with
  | none => Except.error (LoadError.missingField "index")
  | some idx =>
    match j.codec_name with
    | none => Except.error (LoadError.missingField "codec_name")
    | some cn =>
      match j.codec_type with
      | none => Except.error (LoadError.missingField "codec_type")
      | some ct =>
        match codecTypeOfString ct with
        | none => Except.error (LoadError.invalidCodecType ct)
        | some cty => Except.ok ⟨idx, cn, cty, language, attached_pic⟩

/-- The English record of the registry model. -/
def englishRecord : LangRecord := ⟨"en", "eng", "eng", "English"⟩

/-- C8: for every input token, language resolution tries display name,
then two-letter code, then terminology code, then bibliographic code,
returning (a `Language` built from) the first record found, and
returns `none` (Absent) exactly when no interpretation matches; the
function is total, so no exception reaches the caller. -/
theorem claim_C8_resolution_order (s : String) :
    Language.from_string s =
      (((iso639get Iso639Key.name s).orElse fun _ =>
        (iso639get Iso639Key.part1 s).orElse fun _ =>
          (iso639get Iso639Key.part2t s).orElse fun _ =>
            iso639get Iso639Key.part2b s).map mkLanguage)
    ∧ (Language.from_string s = none ↔
        iso639get Iso639Key.name s = none ∧
        iso639get Iso639Key.part1 s = none ∧
        iso639get Iso639Key.part2t s = none ∧
        iso639get Iso639Key.part2b s = none) := by
  cases h1 : iso639get Iso639Key.name s <;>
    cases h2 : iso639get Iso639Key.part1 s <;>
      cases h3 : iso639get Iso639Key.part2t s <;>
        cases h4 : iso639get Iso639Key.part2b s <;>
          simp [Language.from_string, Language.resolveRecord, resolveGo,
            h1, h2, h3, h4, Option.orElse]

/-- C9: two tokens resolving to the same canonical registry record
yield equal `Language` values with the same hash; the program's
equality is reflexive and symmetric and agrees with the hash, and
depends only on the resolved record, not on the token spelling. -/
theorem claim_C9_language_eq_hash (t1 t2 : String) (r : LangRecord)
    (h1 : Language.resolveRecord t1 = some r)
    (h2 : Language.resolveRecord t2 = some r) :
    ∃ l1 l2, Language.from_string t1 = some l1 ∧
      Language.from_string t2 = some l2 ∧
      l1 = l2 ∧
      l1.pyEq l2 = true ∧ l2.pyEq l1 = true ∧
      l1.pyHash = l2.pyHash ∧
      l1.pyEq l1 = true := by
  refine ⟨mkLanguage r, mkLanguage r, ?_, ?_, rfl, ?_, ?_, rfl, ?_⟩ <;>
    simp [Language.from_string, h1, h2, Language.pyEq]

/-- Witness for C9 at the two spellings `"en"` and `"eng"` of English. -/
theorem claim_C9_witness :
    Language.resolveRecord "en" = some englishRecord ∧
    Language.resolveRecord "eng" = some englishRecord ∧
    (∃ l1 l2, Language.from_string "en" = some l1 ∧
      Language.from_string "eng" = some l2 ∧
      l1 = l2 ∧
      l1.pyEq l2 = true ∧ l2.pyEq l1 = true ∧
      l1.pyHash = l2.pyHash ∧
      l1.pyEq l1 = true) :=
  ⟨by decide, by decide,
    claim_C9_language_eq_hash "en" "eng" englishRecord (by decide) (by decide)⟩

/-- C6: a raw stream record missing any of the required fields
`index`, `codec_name`, `codec_type`, or whose `codec_type` is not one
of the three known categories, makes stream classification fail with
an error (never a silently defaulted `Stream`). -/
theorem claim_C6_classification_fails (j : StreamJson)
    (h : j.index = none ∨ j.codec_name = none ∨ j.codec_type = none ∨
      ∃ s, j.codec_type = some s ∧ codecTypeOfString s = none) :
    ∃ e, load_stream j = Except.error e := by
  cases hidx : j.index with
  | none => exact ⟨LoadError.missingField "index", by simp [load_stream, hidx]⟩
  | some idx =>
    cases hcn : j.codec_name with
    | none => exact ⟨LoadError.missingField "codec_name", by simp [load_stream, hidx, hcn]⟩
    | some cn =>
      cases hct : j.codec_type with
      | none => exact ⟨LoadError.missingField "codec_type", by simp [load_stream, hidx, hcn, hct]⟩
      | some ct =>
        rcases h with h | h | h | ⟨s, hs, hcs⟩
        · simp [hidx] at h
        · simp [hcn] at h
        · simp [hct] at h
        · rw [hct] at hs
          cases hs
          exact ⟨LoadError.invalidCodecType ct, by simp [load_stream, hidx, hcn, hct, hcs]⟩

/-- Witness for C6: a record with `index` and `codec_name` present but
no `codec_type` fails classification. -/
theorem claim_C6_witness :
    ∃ e, load_stream ⟨some 0, some "subrip", none, none, none⟩ = Except.error e :=
  claim_C6_classification_fails ⟨some 0, some "subrip", none, none, none⟩
    (Or.inr (Or.inr (Or.inl rfl)))

/-- The `Movie` aggregate, restricted to the data the analysed logic
reads: the display name (filename without extension) and the probed
stream list.  Path, extension and directory only feed the external
probe/filesystem collaborators. -/
structure Movie where
  name : String
  streams : List Stream
deriving DecidableEq, Repr

/-- `Movie.find_subtitles` / the `subtitles` attribute (source lines
136, 152-153): the embedded valid subtitle streams in source order. -/
def Movie.subtitles (m : Movie) : List Stream :=
  m.streams.filter Stream.is_valid_subtitle

/-- The `ExternalSubtitle` class: optional parsed language, movie-name
key, file path. -/
structure ExternalSubtitle where
  language : Option Language
  name : String
  path : String
deriving DecidableEq, Repr

/-- The catalog (`Analyser.subtitle_map`): a Python dict from movie
name to a dict from language to path, modelled as insertion-ordered
association lists. -/
abbrev SubtitleMap : Type :=
  List (String × List (Option Language × String))

/-- Dict read `subtitle_map[name]`, returning the value on a hit. -/
def lookupName (m : SubtitleMap) (movie_name : String) :
    Option (List (Option Language × String)) :=
  (m.find? (fun e => e.1 == movie_name)).map Prod.snd

/-- Dict read `d.get(language)` on an inner dict, using the
`Language.__eq__` / `__hash__` semantics for key identity. -/
def lookupLang (langs : List (Option Language × String))
    (language : Option Language) : Option String :=
  (langs.find? (fun e => optPyEq e.1 language)).map Prod.snd

/-- Dict write `d[language] = path` on an inner dict: replace the
value of the (unique) matching key, keeping the originally stored key
object, else append the new pair — exactly a Python dict update. -/
def dictSetLang (langs : List (Option Language × String))
    (k : Option Language) (v : String) : List (Option Language × String) :=
  match langs with
  | [] => [(k, v)]
  | (k0, v0) :: rest =>
    if optPyEq k0 k then (k0, v) :: rest
    else (k0, v0) :: dictSetLang rest k v

/-- Dict write `subtitle_map[name][language] = path` at the outer
level: update the matching movie entry in place. -/
def dictSetName (m : SubtitleMap) (movie_name : String)
    (k : Option Language) (v : String) : SubtitleMap :=
  match m with
  | [] => []
  | (n0, langs) :: rest =>
    if n0 == movie_name then (n0, dictSetLang langs k v) :: rest
    else (n0, langs) :: dictSetName rest movie_name k v

/-- One iteration of the loop body of `Analyser.build_subtitle_map`
(source lines 217-226): ensure the movie entry exists, pick the
subtitle's language or the catalog default `en`, store the path. -/
def addSubtitle (m : SubtitleMap) (sub : ExternalSubtitle) : SubtitleMap :=
  let m1 : SubtitleMap :=
    if (m.find? (fun e => e.1 == sub.name)).isSome then m
    else m ++ [(sub.name, [])]
  let language : Option Language :=
    match sub.language with
    | some l => some l
    | none => Language.from_string "en"
  dictSetName m1 sub.name language sub.path

/-- `Analyser.build_subtitle_map` (source lines 214-226) over the
discovered external subtitles, in discovery order. -/
def build_subtitle_map (subs : List ExternalSubtitle) : SubtitleMap :=
  subs.foldl addSubtitle []

/-- `Analyser.get_subtitle_path` (source lines 208-212): the
`KeyError` of a missing movie entry is caught and becomes `None`;
`.get` on the inner dict yields `None` on a missing language. -/
def get_subtitle_path (subtitle_map : SubtitleMap) (movie_name : String)
    (language : Option Language) : Option String :=
  match lookupName subtitle_map movie_name with
  | none => none
  | some langs => lookupLang langs language

/-- `get_language` (source lines 182-185): substitute the process-wide
default for an absent language, then take the bibliographic code.
(Were `DEFAULT_LANGUAGE` itself `None`, Python would raise; the
registry model resolves `'eng'`, so the branch returns its code.) -/
def get_language (language : Option Language) : String :=
  match language with
  | some l => l.part2b
  | none =>
    match DEFAULT_LANGUAGE with
    | some l => l.part2b
    | none => ""

/-- `existing_languages` of a movie (source line 258): the raw
`language` attribute of each embedded valid subtitle stream. -/
def existing_languages (movie : Movie) : List (Option Language) :=
  movie.subtitles.map (fun s => s.language)

/-- `available_languages` (source line 259): the catalog's language
keys for the movie name, in dict iteration (insertion) order; empty
when the movie has no entry. -/
def available_languages (subtitle_map : SubtitleMap) (movie_name : String) :
    List (Option Language) :=
  ((lookupName subtitle_map movie_name).getD []).map Prod.fst

/-- The Gap Analyzer (source line 261): catalog languages not
(Python-)equal to any existing embedded subtitle language. -/
def missing_languages (movie : Movie) (subtitle_map : SubtitleMap) :
    List (Option Language) :=
  (available_languages subtitle_map movie.name).filter
    (fun i => !((existing_languages movie).any (fun e => optPyEq e i)))

/-- The Gap Analyzer as the spec words it: the existing set is the
EFFECTIVE language of each embedded subtitle stream (stream language
if present, else the process-wide default).  Stated only to compare
with `missing_languages`, which uses the raw stream language. -/
def missing_languages_spec (movie : Movie) (subtitle_map : SubtitleMap) :
    List (Option Language) :=
  let existing := movie.subtitles.map
    (fun s =>
      match s.language with
      | some l => some l
      | none => DEFAULT_LANGUAGE)
  (available_languages subtitle_map movie.name).filter
    (fun i => !(existing.any (fun e => optPyEq e i)))

/-- The program's equality is reflexive. -/
theorem optPyEq_refl (l : Option Language) : optPyEq l l = true := by
  cases l with
  | none => rfl
  | some a => simp [optPyEq, Language.pyEq]

/-- `dictSetLang` never produces an empty dict. -/
theorem dictSetLang_ne_nil (langs : List (Option Language × String))
    (k : Option Language) (v : String) : dictSetLang langs k v ≠ [] := by
  cases langs with
  | nil => simp [dictSetLang]
  | cons e rest =>
    obtain ⟨k0, v0⟩ := e
    by_cases h : optPyEq k0 k <;> simp [dictSetLang, h]

/-- Key list of a dict after a write: unchanged on an update of an
existing key, the new key appended on an insert. -/
theorem dictSetLang_keys (langs : List (Option Language × String))
    (k : Option Language) (v : String) :
    (dictSetLang langs k v).map Prod.fst =
      if (langs.find? (fun e => optPyEq e.1 k)).isSome then langs.map Prod.fst
      else langs.map Prod.fst ++ [k] := by
  induction langs with
  | nil => simp [dictSetLang]
  | cons e rest ih =>
    obtain ⟨k0, v0⟩ := e
    cases h : optPyEq k0 k with
    | true =>
      rw [dictSetLang, if_pos h, List.find?_cons_of_pos _ (by simpa using h)]
      simp
    | false =>
      rw [dictSetLang, if_neg (by simp [h]),
        List.find?_cons_of_neg _ (by simp [h]), List.map_cons, ih]
      by_cases hf : (List.find? (fun e => optPyEq e.1 k) rest).isSome <;> simp [hf]

/-- The three catalog invariants maintained while building: movie
names are pairwise distinct, every entry's inner dict is non-empty,
and every inner dict's keys are pairwise distinct for the program's
language equality. -/
def mapInv (m : SubtitleMap) : Prop :=
  List.Pairwise (· ≠ ·) (m.map Prod.fst) ∧
  (∀ e ∈ m, e.2 ≠ []) ∧
  (∀ e ∈ m, List.Pairwise (fun a b => optPyEq a b = false) (e.2.map Prod.fst))

theorem dictSetLang_pairwise (langs : List (Option Language × String))
    (k : Option Language) (v : String)
    (h : List.Pairwise (fun a b => optPyEq a b = false) (langs.map Prod.fst)) :
    List.Pairwise (fun a b => optPyEq a b = false)
      ((dictSetLang langs k v).map Prod.fst) := by
  rw [dictSetLang_keys]
  by_cases hf : (langs.find? (fun e => optPyEq e.1 k)).isSome
  · simpa [hf] using h
  · rw [if_neg hf]
    rw [List.find?_isSome] at hf
    push_neg at hf
    refine List.pairwise_append.2 ⟨h, List.pairwise_singleton _ _, ?_⟩
    intro a ha b hb
    simp at hb
    subst hb
    rcases List.mem_map.1 ha with ⟨e, he, rfl⟩
    simpa using hf e he

/-- An outer dict write never changes the movie-name key list. -/
theorem dictSetName_names (m : SubtitleMap) (movie_name : String)
    (k : Option Language) (v : String) :
    (dictSetName m movie_name k v).map Prod.fst = m.map Prod.fst := by
  induction m with
  | nil => simp [dictSetName]
  | cons e rest ih =>
    obtain ⟨n0, langs⟩ := e
    by_cases hn : n0 == movie_name <;> simp [dictSetName, hn, ih]

/-- Every entry of an outer dict write is either an old entry or an
old entry with its inner dict written. -/
theorem mem_dictSetName (m : SubtitleMap) (movie_name : String)
    (k : Option Language) (v : String)
    {e' : String × List (Option Language × String)}
    (he' : e' ∈ dictSetName m movie_name k v) :
    e' ∈ m ∨ ∃ langs, (e'.1, langs) ∈ m ∧ e'.2 = dictSetLang langs k v := by
  induction m with
  | nil => simp [dictSetName] at he'
  | cons e rest ih =>
    obtain ⟨n0, langs0⟩ := e
    by_cases hn : n0 == movie_name
    · rw [dictSetName, if_pos hn] at he'
      rcases List.mem_cons.1 he' with rfl | he'
      · exact Or.inr ⟨langs0, List.mem_cons_self _ _, rfl⟩
      · exact Or.inl (List.mem_cons_of_mem _ he')
    · rw [dictSetName, if_neg hn] at he'
      rcases List.mem_cons.1 he' with rfl | he'
      · exact Or.inl (List.mem_cons_self _ _)
      · rcases ih he' with h | ⟨langs, hm, hv⟩
        · exact Or.inl (List.mem_cons_of_mem _ h)
        · exact Or.inr ⟨langs, List.mem_cons_of_mem _ hm, hv⟩

/-- Writing a key that sits in a freshly appended last entry (no
earlier entry has that name) rewrites exactly that last entry. -/
theorem dictSetName_append_fresh (m : SubtitleMap) (movie_name : String)
    (langs : List (Option Language × String)) (k : Option Language) (v : String)
    (h : ∀ e ∈ m, e.1 ≠ movie_name) :
    dictSetName (m ++ [(movie_name, langs)]) movie_name k v =
      m ++ [(movie_name, dictSetLang langs k v)] := by
  induction m with
  | nil => simp [dictSetName]
  | cons e rest ih =>
    obtain ⟨n0, l0⟩ := e
    have hn : (n0 == movie_name) = false := by
      simpa using h (n0, l0) (List.mem_cons_self _ _)
    rw [List.cons_append, dictSetName, if_neg (by simp [hn]), List.cons_append]
    rw [ih (fun e' he' => h e' (List.mem_cons_of_mem _ he'))]

/-- One build step preserves the catalog invariants. -/
theorem addSubtitle_mapInv (m : SubtitleMap) (sub : ExternalSubtitle)
    (h : mapInv m) : mapInv (addSubtitle m sub) := by
  obtain ⟨hnames, hne, hpair⟩ := h
  rw [addSubtitle]
  by_cases hf : (m.find? (fun e => e.1 == sub.name)).isSome
  · rw [if_pos hf]
    refine ⟨?_, ?_, ?_⟩
    · rw [dictSetName_names]; exact hnames
    · intro e' he'
      rcases mem_dictSetName _ _ _ _ he' with h' | ⟨langs, _, hv⟩
      · exact hne e' h'
      · rw [hv]; exact dictSetLang_ne_nil _ _ _
    · intro e' he'
      rcases mem_dictSetName _ _ _ _ he' with h' | ⟨langs, hm, hv⟩
      · exact hpair e' h'
      · rw [hv]
        exact dictSetLang_pairwise _ _ _ (hpair (e'.1, langs) hm)
  · rw [if_neg hf]
    have hfresh : ∀ e ∈ m, e.1 ≠ sub.name := by
      intro e he
      rw [List.find?_isSome] at hf
      push_neg at hf
      simpa using hf e he
    rw [dictSetName_append_fresh m sub.name [] _ _ hfresh]
    refine ⟨?_, ?_, ?_⟩
    · rw [List.map_append, List.pairwise_append]
      refine ⟨hnames, by simp, ?_⟩
      intro a ha b hb
      simp at hb
      subst hb
      rcases List.mem_map.1 ha with ⟨e, he, rfl⟩
      exact hfresh e he
    · intro e' he'
      rcases List.mem_append.1 he' with h' | h'
      · exact hne e' h'
      · simp only [List.mem_singleton] at h'
        rw [h']
        exact dictSetLang_ne_nil _ _ _
    · intro e' he'
      rcases List.mem_append.1 he' with h' | h'
      · exact hpair e' h'
      · simp only [List.mem_singleton] at h'
        rw [h']
        simp [dictSetLang]

/-- The catalog built by `build_subtitle_map` satisfies the
invariants. -/
theorem build_subtitle_map_mapInv (subs : List ExternalSubtitle) :
    mapInv (build_subtitle_map subs) := by
  have hgen : ∀ (l : List ExternalSubtitle) (acc : SubtitleMap),
      mapInv acc → mapInv (l.foldl addSubtitle acc) := by
    intro l
    induction l with
    | nil => intro acc h; exact h
    | cons sub rest ih =>
      intro acc h
      exact ih _ (addSubtitle_mapInv acc sub h)
  exact hgen subs [] ⟨List.Pairwise.nil, by simp, by simp⟩

/-- Language keys of any catalog entry are pairwise distinct for the
program's language equality. -/
theorem available_pairwise (subs : List ExternalSubtitle) (mn : String) :
    List.Pairwise (fun a b => optPyEq a b = false)
      (available_languages (build_subtitle_map subs) mn) := by
  cases hlk : lookupName (build_subtitle_map subs) mn with
  | none => simp [available_languages, hlk]
  | some langs =>
    rw [lookupName, Option.map_eq_some'] at hlk
    obtain ⟨e, hfind, hsnd⟩ := hlk
    have hmem := List.mem_of_find?_eq_some hfind
    have := (build_subtitle_map_mapInv subs).2.2 e hmem
    rw [hsnd] at this
    simpa [available_languages, lookupName, hfind, hsnd] using this

/-- The Gap Analyzer's result contains no duplicate languages when the
catalog was built by `build_subtitle_map`. -/
theorem missing_pairwise (movie : Movie) (subs : List ExternalSubtitle) :
    List.Pairwise (fun a b => optPyEq a b = false)
      (missing_languages movie (build_subtitle_map subs)) :=
  List.Pairwise.sublist (List.filter_sublist _) (available_pairwise subs movie.name)

/-- The English `Language` value. -/
def english : Language := mkLanguage englishRecord

/-- A movie with one embedded valid subtitle stream carrying no
language tag. -/
def movieX : Movie := ⟨"X", [⟨0, "subrip", CodecType.Subtitle, none, false⟩]⟩

/-- One catalogued external subtitle for that movie, in English. -/
def subsX : List ExternalSubtitle := [⟨some english, "X", "/subs/X.en.srt"⟩]

/-- The catalog built from `subsX`. -/
def catalogX : SubtitleMap := build_subtitle_map subsX

/-- Counterexample to C2 as stated: for a movie whose embedded
subtitle has no language tag and a catalog offering English, the
program's gap analysis (raw stream languages) disagrees with the
claimed effective-language computation, which would default the
untagged stream to English and report nothing missing. -/
theorem claim_C2_counterexample :
    missing_languages movieX catalogX ≠ missing_languages_spec movieX catalogX := by
  decide

/-- C2 (amended): the Gap Analyzer takes the RAW language of each
embedded valid subtitle stream (absent tags stay absent, they are not
defaulted), candidates are the catalog's languages for the movie name,
and the result is the candidates equal (under the program's language
equality) to no existing entry, preserving catalog order and, for a
catalog built by `build_subtitle_map`, containing no duplicates. -/
theorem claim_C2_gap_analysis (movie : Movie) (subs : List ExternalSubtitle)
    (subtitle_map : SubtitleMap) (h : subtitle_map = build_subtitle_map subs) :
    List.Sublist (missing_languages movie subtitle_map)
        (available_languages subtitle_map movie.name)
    ∧ (∀ l ∈ missing_languages movie subtitle_map,
        ∀ s ∈ movie.subtitles, optPyEq s.language l = false)
    ∧ (∀ l ∈ available_languages subtitle_map movie.name,
        (∀ s ∈ movie.subtitles, optPyEq s.language l = false) →
          l ∈ missing_languages movie subtitle_map)
    ∧ List.Pairwise (fun a b => optPyEq a b = false)
        (missing_languages movie subtitle_map) := by
  subst h
  refine ⟨List.filter_sublist _, ?_, ?_, ?_⟩
  · intro l hl s hs
    simp only [missing_languages, List.mem_filter, Bool.not_eq_true',
      List.any_eq_false, existing_languages, List.mem_map] at hl
    simpa using hl.2 s.language ⟨s, hs, rfl⟩
  · intro l hav hall
    simp only [missing_languages, List.mem_filter, Bool.not_eq_true',
      List.any_eq_false, existing_languages, List.mem_map]
    refine ⟨hav, ?_⟩
    rintro e ⟨s, hs, rfl⟩
    simpa using hall s hs
  · exact missing_pairwise movie subs

/-- Witness for C2 (amended) at the concrete movie and catalog. -/
theorem claim_C2_witness :
    List.Sublist (missing_languages movieX catalogX)
        (available_languages catalogX movieX.name)
    ∧ (∀ l ∈ missing_languages movieX catalogX,
        ∀ s ∈ movieX.subtitles, optPyEq s.language l = false)
    ∧ (∀ l ∈ available_languages catalogX movieX.name,
        (∀ s ∈ movieX.subtitles, optPyEq s.language l = false) →
          l ∈ missing_languages movieX catalogX)
    ∧ List.Pairwise (fun a b => optPyEq a b = false)
        (missing_languages movieX catalogX) :=
  claim_C2_gap_analysis movieX subsX catalogX rfl

/-- C10: a catalog built by `build_subtitle_map` maps every present
movie-name key to a non-empty language dict, and every language the
Gap Analyzer reports missing for a movie has a non-Absent subtitle
path in the catalog: the candidates are drawn from the movie's own
catalog keys, so the path lookup succeeds. -/
theorem claim_C10_catalog_invariant (subs : List ExternalSubtitle)
    (subtitle_map : SubtitleMap) (h : subtitle_map = build_subtitle_map subs) :
    (∀ e ∈ subtitle_map, e.2 ≠ [])
    ∧ (∀ movie : Movie, ∀ l ∈ missing_languages movie subtitle_map,
        (get_subtitle_path subtitle_map movie.name l).isSome = true) := by
  subst h
  refine ⟨(build_subtitle_map_mapInv subs).2.1, ?_⟩
  intro movie l hl
  have hav : l ∈ available_languages (build_subtitle_map subs) movie.name :=
    List.Sublist.mem hl (List.filter_sublist _)
  cases hlk : lookupName (build_subtitle_map subs) movie.name with
  | none => simp [available_languages, hlk] at hav
  | some langs =>
    rw [available_languages, hlk] at hav
    simp only [Option.getD_some, List.mem_map] at hav
    obtain ⟨e, he, rfl⟩ := hav
    simp only [get_subtitle_path, hlk, lookupLang, Option.isSome_map']
    rw [List.find?_isSome]
    exact ⟨e, he, optPyEq_refl e.1⟩

/-- Witness for C10 at the concrete catalog. -/
theorem claim_C10_witness :
    (∀ e ∈ catalogX, e.2 ≠ [])
    ∧ (∀ movie : Movie, ∀ l ∈ missing_languages movie catalogX,
        (get_subtitle_path catalogX movie.name l).isSome = true) :=
  claim_C10_catalog_invariant subsX catalogX rfl

/-- `video_streams` (source lines 272-273): video streams that are not
attached pictures, in source order. -/
def video_streams (movie : Movie) : List Stream :=
  movie.streams.filter (fun s => s.codec_type == CodecType.Video && !s.attached_pic)

/-- `audio_streams` (source lines 275-276). -/
def audio_streams (movie : Movie) : List Stream :=
  movie.streams.filter (fun s => s.codec_type == CodecType.Audio)

/-- `attached_pics` (source lines 306-307). -/
def attached_pics (movie : Movie) : List Stream :=
  movie.streams.filter (fun s => s.codec_type == CodecType.Video && s.attached_pic)

/-- One command element: every literal is a present string; the looked
up subtitle path may be Python `None` (source line 270 appends it
unchecked), hence `Option`. -/
abbrev Arg : Type := Option String

/-- Loop body of source lines 268-270: one `-i` external-input
directive per missing language, with the catalog path (possibly
`None`). -/
def inputSeg (subtitle_map : SubtitleMap) (movie_name : String)
    (language : Option Language) : List Arg :=
  [some "-i", get_subtitle_path subtitle_map movie_name language]

/-- Loop body of source lines 278-280: map each video stream by its
container index and re-encode it as `libx265` at output video slot
`index`. -/
def videoSeg (p : ℕ × Stream) : List Arg :=
  [some "-map", some ("0:" ++ toString p.2.index),
   some ("-c:v:" ++ toString p.1), some "libx265"]

/-- Loop body of source lines 282-283: map each audio stream. -/
def audioSeg (s : Stream) : List Arg :=
  [some "-map", some ("0:" ++ toString s.index)]

/-- Loop body of source lines 285-293: map each embedded valid
subtitle stream, set its language metadata and codec at subtitle slot
`index`, and set the default disposition when its raw language equals
`DEFAULT_LANGUAGE`. -/
def embSeg (p : ℕ × Stream) : List Arg :=
  [some "-map", some ("0:" ++ toString p.2.index),
   some ("-metadata:s:s:" ++ toString p.1),
   some ("language=" ++ get_language p.2.language),
   some ("-c:s:" ++ toString p.1), some p.2.codec_name]
  ++ (if optPyEq p.2.language DEFAULT_LANGUAGE then
        [some ("-disposition:s:" ++ toString p.1), some "default"] else [])

/-- Loop body of source lines 295-304: map the whole subtitle stream
of external input `index + 1` to subtitle slot
`len(movie.subtitles) + index`, set metadata and `subrip`, and set
the default disposition when the language equals `DEFAULT_LANGUAGE`. -/
def extSeg (subtitlesCount : ℕ) (p : ℕ × Option Language) : List Arg :=
  [some "-map", some (toString (p.1 + 1) ++ ":s"),
   some ("-metadata:s:s:" ++ toString (subtitlesCount + p.1)),
   some ("language=" ++ get_language p.2),
   some ("-c:s:" ++ toString (subtitlesCount + p.1)), some "subrip"]
  ++ (if optPyEq p.2 DEFAULT_LANGUAGE then
        [some ("-disposition:s:" ++ toString (subtitlesCount + p.1)), some "default"]
      else [])

/-- Loop body of source lines 309-315: map each attached picture at
output video slot `len(video_streams) + index` with its own codec and
the attached-picture disposition. -/
def picSeg (videoCount : ℕ) (p : ℕ × Stream) : List Arg :=
  [some "-map", some ("0:" ++ toString p.2.index),
   some ("-c:v:" ++ toString (videoCount + p.1)), some p.2.codec_name,
   some ("-disposition:v:" ++ toString (videoCount + p.1)), some "attached_pic"]

/-- The ffmpeg command built by `Analyser.__init__` (source lines
266-322): base invocation with the piped primary input, one external
input per missing language, then the video, audio, embedded-subtitle,
external-subtitle and attached-picture directives, then the output
path. -/
def buildCommand (movie : Movie) (missing : List (Option Language))
    (subtitle_map : SubtitleMap) (output_path : String) : List Arg :=
  [some "ffmpeg", some "-i", some "pipe:0"]
  ++ missing.flatMap (inputSeg subtitle_map movie.name)
  ++ (video_streams movie).enum.flatMap videoSeg
  ++ (audio_streams movie).flatMap audioSeg
  ++ movie.subtitles.enum.flatMap embSeg
  ++ missing.enum.flatMap (extSeg movie.subtitles.length)
  ++ (attached_pics movie).enum.flatMap (picSeg (video_streams movie).length)
  ++ [some output_path]

/-- The per-movie analysis of `Analyser.__init__` (lines 258-322,
ignoring the filesystem interaction): gap analysis followed by
command construction. -/
def analyse_movie (movie : Movie) (subtitle_map : SubtitleMap)
    (output_path : String) : List Arg :=
  buildCommand movie (missing_languages movie subtitle_map) subtitle_map output_path

/-- A string that does not masquerade as an option flag or a map
value: its first character is neither `-` nor a digit.  Every real
file path and codec name satisfies this; an output path or codec name
that spelled out an ffmpeg flag would genuinely corrupt the flat
command the program builds. -/
def headClean (s : String) : Bool :=
  match s.data with
  | [] => true
  | c :: _ => !(c == '-') && !c.isDigit

/-- Side condition for reading directives back out of the flat
command: the output path, the attached pictures' codec names and the
catalog paths of the missing languages are all `headClean`. -/
def cleanPlan (movie : Movie) (subtitle_map : SubtitleMap)
    (missing : List (Option Language)) (output_path : String) : Prop :=
  headClean output_path = true
  ∧ (∀ s ∈ attached_pics movie, headClean s.codec_name = true)
  ∧ (∀ l ∈ missing, ∀ p, get_subtitle_path subtitle_map movie.name l = some p →
      headClean p = true)

instance cleanPlanDecidable (movie : Movie) (subtitle_map : SubtitleMap)
    (missing : List (Option Language)) (output_path : String) :
    Decidable (cleanPlan movie subtitle_map missing output_path) := by
  unfold cleanPlan
  infer_instance

/-- Is this element a default-subtitle disposition flag
(`-disposition:s:N`)? -/
def isSubDispoArg : Arg → Bool
  | some s => "-disposition:s:".data.isPrefixOf s.data
  | none => false

/-- Number of default-subtitle disposition directives in a command. -/
def countSubDispo (cmd : List Arg) : ℕ := cmd.countP isSubDispoArg

/-- The subtitle output slot named by a `-c:s:N` element, as the digit
string `N`. -/
def csSlotArg : Arg → Option (List Char)
  | some s => if "-c:s:".data.isPrefixOf s.data then some (s.data.drop 5) else none
  | none => none

/-- The subtitle codec slots of a command, in emission order. -/
def csSlots (cmd : List Arg) : List (List Char) := cmd.filterMap csSlotArg

/-- The video output slot named by a `-c:v:N` element. -/
def cvSlotArg : Arg → Option (List Char)
  | some s => if "-c:v:".data.isPrefixOf s.data then some (s.data.drop 5) else none
  | none => none

/-- The video codec slots of a command, in emission order. -/
def cvSlots (cmd : List Arg) : List (List Char) := cmd.filterMap cvSlotArg

/-- A `-map` argument value: the only command elements that start with
a digit (`0:N` for container streams, `K:s` for external inputs). -/
def mapValArg : Arg → Option String
  | some s =>
    match s.data with
    | [] => none
    | c :: _ => if c.isDigit then some s else none
  | none => none

/-- The stream-mapping directives of a command, in emission order. -/
def mapValues (cmd : List Arg) : List String := cmd.filterMap mapValArg

/-- Is this element an input flag (`-i`)? -/
def isInputFlag : Arg → Bool
  | some s => ['-', 'i'].isPrefixOf s.data
  | none => false

/-- Number of input directives (primary pipe plus external subtitle
files). -/
def countInputFlags (cmd : List Arg) : ℕ := cmd.countP isInputFlag

/-- A char list is a prefix-list of itself followed by anything. -/
theorem isPre_append (p t : List Char) : p.isPrefixOf (p ++ t) = true := by
  induction p with
  | nil => simp [List.isPrefixOf]
  | cons c cs ih => simp [List.isPrefixOf, ih]

theorem digitChar_isDigit (k : ℕ) (h : k < 10) : (Nat.digitChar k).isDigit = true := by
  interval_cases k <;> decide

theorem toDigitsCore_digits (fuel n : ℕ) (ds : List Char)
    (h : ∀ c ∈ ds, c.isDigit = true) :
    ∀ c ∈ Nat.toDigitsCore 10 fuel n ds, c.isDigit = true := by
  induction fuel generalizing n ds with
  | zero => simpa [Nat.toDigitsCore] using h
  | succ fuel ih =>
    rw [Nat.toDigitsCore]
    by_cases hz : n / 10 = 0
    · rw [if_pos hz]
      intro c hc
      rcases List.mem_cons.1 hc with rfl | hc
      · exact digitChar_isDigit _ (Nat.mod_lt _ (by norm_num))
      · exact h c hc
    · rw [if_neg hz]
      refine ih _ _ ?_
      intro c hc
      rcases List.mem_cons.1 hc with rfl | hc
      · exact digitChar_isDigit _ (Nat.mod_lt _ (by norm_num))
      · exact h c hc

theorem toDigitsCore_ne_nil (fuel n : ℕ) (ds : List Char) (h : ds ≠ []) :
    Nat.toDigitsCore 10 fuel n ds ≠ [] := by
  induction fuel generalizing n ds with
  | zero => simpa [Nat.toDigitsCore] using h
  | succ fuel ih =>
    rw [Nat.toDigitsCore]
    by_cases hz : n / 10 = 0
    · rw [if_pos hz]; simp
    · rw [if_neg hz]
      exact ih _ _ (by simp)

/-- The decimal rendering of a natural number starts with a digit. -/
theorem natToString_head_digit (n : ℕ) :
    ∃ c cs, (toString n).data = c :: cs ∧ c.isDigit = true := by
  have h1 : ∀ c ∈ (toString n).data, c.isDigit = true := by
    show ∀ c ∈ (Nat.toDigits 10 n).asString.data, c.isDigit = true
    rw [show ((Nat.toDigits 10 n).asString.data) = Nat.toDigits 10 n from rfl]
    exact toDigitsCore_digits _ _ _ (by simp)
  have h2 : (toString n).data ≠ [] := by
    show (Nat.toDigits 10 n).asString.data ≠ []
    rw [show ((Nat.toDigits 10 n).asString.data) = Nat.toDigits 10 n from rfl]
    rw [Nat.toDigits, Nat.toDigitsCore]
    by_cases hz : n / 10 = 0
    · rw [if_pos hz]; simp
    · rw [if_neg hz]
      exact toDigitsCore_ne_nil _ _ _ (by simp)
  cases hd : (toString n).data with
  | nil => exact absurd hd h2
  | cons c cs => exact ⟨c, cs, rfl, h1 c (hd ▸ List.mem_cons_self _ _)⟩

theorem digit_not_dash (c : Char) (h : c.isDigit = true) :
    (('-' : Char) == c) = false := by
  cases hc : ('-' : Char) == c
  · rfl
  · have : ('-' : Char) = c := by simpa using hc
    rw [← this] at h
    exact absurd h (by decide)

/-- A `headClean` string is no `-c:s:` directive. -/
theorem csSlotArg_clean (s : String) (h : headClean s = true) :
    csSlotArg (some s) = none := by
  rw [csSlotArg]
  cases hd : s.data with
  | nil => decide
  | cons c cs =>
    rw [headClean, hd, Bool.and_eq_true] at h
    have hdash : (('-' : Char) == c) = false := by
      have h1 : (c == '-') = false := by simpa using h.1
      simp only [beq_eq_false_iff_ne] at h1 ⊢
      exact fun hx => h1 hx.symm
    rw [show ("-c:s:".data) = '-' :: "c:s:".data from rfl]
    simp [List.isPrefixOf, hdash]

/-- A `headClean` string is no `-c:v:` directive. -/
theorem cvSlotArg_clean (s : String) (h : headClean s = true) :
    cvSlotArg (some s) = none := by
  rw [cvSlotArg]
  cases hd : s.data with
  | nil => decide
  | cons c cs =>
    rw [headClean, hd, Bool.and_eq_true] at h
    have hdash : (('-' : Char) == c) = false := by
      have h1 : (c == '-') = false := by simpa using h.1
      simp only [beq_eq_false_iff_ne] at h1 ⊢
      exact fun hx => h1 hx.symm
    rw [show ("-c:v:".data) = '-' :: "c:v:".data from rfl]
    simp [List.isPrefixOf, hdash]

/-- A `headClean` string is no default-disposition directive. -/
theorem subDispoArg_clean (s : String) (h : headClean s = true) :
    isSubDispoArg (some s) = false := by
  rw [isSubDispoArg]
  cases hd : s.data with
  | nil => decide
  | cons c cs =>
    rw [headClean, hd, Bool.and_eq_true] at h
    have hdash : (('-' : Char) == c) = false := by
      have h1 : (c == '-') = false := by simpa using h.1
      simp only [beq_eq_false_iff_ne] at h1 ⊢
      exact fun hx => h1 hx.symm
    rw [show ("-disposition:s:".data) = '-' :: "disposition:s:".data from rfl]
    simp [List.isPrefixOf, hdash]

/-- A `headClean` string is no input flag. -/
theorem inputFlag_clean (s : String) (h : headClean s = true) :
    isInputFlag (some s) = false := by
  rw [isInputFlag]
  cases hd : s.data with
  | nil => decide
  | cons c cs =>
    rw [headClean, hd, Bool.and_eq_true] at h
    have hdash : (('-' : Char) == c) = false := by
      have h1 : (c == '-') = false := by simpa using h.1
      simp only [beq_eq_false_iff_ne] at h1 ⊢
      exact fun hx => h1 hx.symm
    simp [List.isPrefixOf, hdash]

/-- A `headClean` string is no map value. -/
theorem mapValArg_clean (s : String) (h : headClean s = true) :
    mapValArg (some s) = none := by
  rw [mapValArg]
  cases hd : s.data with
  | nil => rfl
  | cons c cs =>
    rw [headClean, hd, Bool.and_eq_true] at h
    have hdig : c.isDigit = false := by simpa using h.2
    simp [hdig]

/-- Valid embedded subtitle codecs are ordinary words. -/
theorem valid_codec_clean (s : Stream) (h : s.is_valid_subtitle = true) :
    headClean s.codec_name = true := by
  rw [Stream.is_valid_subtitle, Bool.and_eq_true] at h
  have h2 := h.2
  simp only [Bool.or_eq_true, beq_iff_eq] at h2
  obtain ((h2 | h2) | h2) | h2 := h2 <;> rw [h2] <;> decide

theorem csSlots_append (a b : List Arg) :
    csSlots (a ++ b) = csSlots a ++ csSlots b :=
  List.filterMap_append _ _ _

theorem cvSlots_append (a b : List Arg) :
    cvSlots (a ++ b) = cvSlots a ++ cvSlots b :=
  List.filterMap_append _ _ _

theorem mapValues_append (a b : List Arg) :
    mapValues (a ++ b) = mapValues a ++ mapValues b :=
  List.filterMap_append _ _ _

theorem countSubDispo_append (a b : List Arg) :
    countSubDispo (a ++ b) = countSubDispo a + countSubDispo b :=
  List.countP_append _ _ _

theorem countInputFlags_append (a b : List Arg) :
    countInputFlags (a ++ b) = countInputFlags a + countInputFlags b :=
  List.countP_append _ _ _

theorem enumFrom_cons' (n : ℕ) (x : α) (xs : List α) :
    List.enumFrom n (x :: xs) = (n, x) :: List.enumFrom (n + 1) xs := rfl

/-- When neither of two char lists is a prefix-list of the other,
their mismatch sits inside both, so no extension of the second can
make the first a prefix-list of it. -/
theorem isPre_append_false (p q x : List Char)
    (hp : p.isPrefixOf q = false) (hq : q.isPrefixOf p = false) :
    p.isPrefixOf (q ++ x) = false := by
  induction p generalizing q with
  | nil => simp [List.isPrefixOf] at hp
  | cons a as ih =>
    cases q with
    | nil => simp [List.isPrefixOf] at hq
    | cons b bs =>
      rw [List.cons_append]
      rw [List.isPrefixOf] at hp hq ⊢
      cases hab : a == b
      · simp [hab]
      · have hba : (b == a) = true := by
          have : a = b := by simpa using hab
          simp [this]
        rw [hab, Bool.true_and] at hp
        rw [hba, Bool.true_and] at hq
        rw [Bool.true_and]
        exact ih bs hp hq

theorem csSlotArg_lit_miss (q t : String)
    (hp : "-c:s:".data.isPrefixOf q.data = false)
    (hq : q.data.isPrefixOf "-c:s:".data = false) :
    csSlotArg (some (q ++ t)) = none := by
  rw [csSlotArg, String.data_append, isPre_append_false _ _ _ hp hq]
  rfl

theorem cvSlotArg_lit_miss (q t : String)
    (hp : "-c:v:".data.isPrefixOf q.data = false)
    (hq : q.data.isPrefixOf "-c:v:".data = false) :
    cvSlotArg (some (q ++ t)) = none := by
  rw [cvSlotArg, String.data_append, isPre_append_false _ _ _ hp hq]
  rfl

theorem subDispoArg_lit_miss (q t : String)
    (hp : "-disposition:s:".data.isPrefixOf q.data = false)
    (hq : q.data.isPrefixOf "-disposition:s:".data = false) :
    isSubDispoArg (some (q ++ t)) = false := by
  rw [isSubDispoArg, String.data_append, isPre_append_false _ _ _ hp hq]

theorem inputFlag_lit_miss (q t : String)
    (hp : (['-', 'i'] : List Char).isPrefixOf q.data = false)
    (hq : q.data.isPrefixOf (['-', 'i'] : List Char) = false) :
    isInputFlag (some (q ++ t)) = false := by
  rw [isInputFlag, String.data_append, isPre_append_false _ _ _ hp hq]

theorem mapValArg_lit_miss (q t : String) (c : Char) (cs : List Char)
    (hd : q.data = c :: cs) (hc : c.isDigit = false) :
    mapValArg (some (q ++ t)) = none := by
  rw [mapValArg]
  simp only [String.data_append, hd, List.cons_append]
  simp [hc]

theorem csSlotArg_hit (t : String) :
    csSlotArg (some ("-c:s:" ++ t)) = some t.data := by
  rw [csSlotArg, String.data_append, isPre_append _ _]
  rw [if_pos rfl, show (5 : ℕ) = ("-c:s:".data).length from rfl, List.drop_left]

theorem cvSlotArg_hit (t : String) :
    cvSlotArg (some ("-c:v:" ++ t)) = some t.data := by
  rw [cvSlotArg, String.data_append, isPre_append _ _]
  rw [if_pos rfl, show (5 : ℕ) = ("-c:v:".data).length from rfl, List.drop_left]

theorem subDispoArg_hit (t : String) :
    isSubDispoArg (some ("-disposition:s:" ++ t)) = true := by
  rw [isSubDispoArg, String.data_append]
  exact isPre_append _ _

theorem mapValArg_zero (t : String) :
    mapValArg (some ("0:" ++ t)) = some ("0:" ++ t) := by
  rw [mapValArg]
  simp only [String.data_append, show ("0:".data) = ['0', ':'] from rfl,
    List.cons_append]
  simp

theorem mapValArg_digitHead (n : ℕ) (t : String) :
    mapValArg (some (toString n ++ t)) = some (toString n ++ t) := by
  obtain ⟨c, cs, hdata, hdig⟩ := natToString_head_digit n
  rw [mapValArg]
  simp only [String.data_append, hdata, List.cons_append]
  simp [hdig]

theorem csSlotArg_digitHead (n : ℕ) (t : String) :
    csSlotArg (some (toString n ++ t)) = none := by
  obtain ⟨c, cs, hdata, hdig⟩ := natToString_head_digit n
  rw [csSlotArg]
  simp only [String.data_append, hdata, List.cons_append,
    show ("-c:s:".data) = '-' :: "c:s:".data from rfl]
  simp [List.isPrefixOf, digit_not_dash c hdig]

theorem cvSlotArg_digitHead (n : ℕ) (t : String) :
    cvSlotArg (some (toString n ++ t)) = none := by
  obtain ⟨c, cs, hdata, hdig⟩ := natToString_head_digit n
  rw [cvSlotArg]
  simp only [String.data_append, hdata, List.cons_append,
    show ("-c:v:".data) = '-' :: "c:v:".data from rfl]
  simp [List.isPrefixOf, digit_not_dash c hdig]

theorem subDispoArg_digitHead (n : ℕ) (t : String) :
    isSubDispoArg (some (toString n ++ t)) = false := by
  obtain ⟨c, cs, hdata, hdig⟩ := natToString_head_digit n
  rw [isSubDispoArg]
  simp only [String.data_append, hdata, List.cons_append,
    show ("-disposition:s:".data) = '-' :: "disposition:s:".data from rfl]
  simp [List.isPrefixOf, digit_not_dash c hdig]

theorem inputFlag_digitHead (n : ℕ) (t : String) :
    isInputFlag (some (toString n ++ t)) = false := by
  obtain ⟨c, cs, hdata, hdig⟩ := natToString_head_digit n
  rw [isInputFlag]
  simp only [String.data_append, hdata, List.cons_append]
  simp [List.isPrefixOf, digit_not_dash c hdig]

/- Per-element evaluations of the directive extractors on every
command element shape the segments emit. -/

theorem csA_none : csSlotArg none = none := rfl

theorem csA_ffmpeg : csSlotArg (some "ffmpeg") = none := by decide

theorem csA_dashi : csSlotArg (some "-i") = none := by decide

theorem csA_pipe : csSlotArg (some "pipe:0") = none := by decide

theorem csA_dashmap : csSlotArg (some "-map") = none := by decide

theorem csA_libx : csSlotArg (some "libx265") = none := by decide

theorem csA_defaultlit : csSlotArg (some "default") = none := by decide

theorem csA_subriplit : csSlotArg (some "subrip") = none := by decide

theorem csA_attached : csSlotArg (some "attached_pic") = none := by decide

theorem csA_zero (t : String) : csSlotArg (some ("0:" ++ t)) = none :=
  csSlotArg_lit_miss _ _ (by decide) (by decide)

theorem csA_cvh (t : String) : csSlotArg (some ("-c:v:" ++ t)) = none :=
  csSlotArg_lit_miss _ _ (by decide) (by decide)

theorem csA_meta (t : String) : csSlotArg (some ("-metadata:s:s:" ++ t)) = none :=
  csSlotArg_lit_miss _ _ (by decide) (by decide)

theorem csA_lang (t : String) : csSlotArg (some ("language=" ++ t)) = none :=
  csSlotArg_lit_miss _ _ (by decide) (by decide)

theorem csA_dispS (t : String) : csSlotArg (some ("-disposition:s:" ++ t)) = none :=
  csSlotArg_lit_miss _ _ (by decide) (by decide)

theorem csA_dispV (t : String) : csSlotArg (some ("-disposition:v:" ++ t)) = none :=
  csSlotArg_lit_miss _ _ (by decide) (by decide)

theorem cvA_none : cvSlotArg none = none := rfl

theorem cvA_ffmpeg : cvSlotArg (some "ffmpeg") = none := by decide

theorem cvA_dashi : cvSlotArg (some "-i") = none := by decide

theorem cvA_pipe : cvSlotArg (some "pipe:0") = none := by decide

theorem cvA_dashmap : cvSlotArg (some "-map") = none := by decide

theorem cvA_libx : cvSlotArg (some "libx265") = none := by decide

theorem cvA_defaultlit : cvSlotArg (some "default") = none := by decide

theorem cvA_subriplit : cvSlotArg (some "subrip") = none := by decide

theorem cvA_attached : cvSlotArg (some "attached_pic") = none := by decide

theorem cvA_zero (t : String) : cvSlotArg (some ("0:" ++ t)) = none :=
  cvSlotArg_lit_miss _ _ (by decide) (by decide)

theorem cvA_csh (t : String) : cvSlotArg (some ("-c:s:" ++ t)) = none :=
  cvSlotArg_lit_miss _ _ (by decide) (by decide)

theorem cvA_meta (t : String) : cvSlotArg (some ("-metadata:s:s:" ++ t)) = none :=
  cvSlotArg_lit_miss _ _ (by decide) (by decide)

theorem cvA_lang (t : String) : cvSlotArg (some ("language=" ++ t)) = none :=
  cvSlotArg_lit_miss _ _ (by decide) (by decide)

theorem cvA_dispS (t : String) : cvSlotArg (some ("-disposition:s:" ++ t)) = none :=
  cvSlotArg_lit_miss _ _ (by decide) (by decide)

theorem cvA_dispV (t : String) : cvSlotArg (some ("-disposition:v:" ++ t)) = none :=
  cvSlotArg_lit_miss _ _ (by decide) (by decide)

theorem dsA_none : isSubDispoArg none = false := rfl

theorem dsA_ffmpeg : isSubDispoArg (some "ffmpeg") = false := by decide

theorem dsA_dashi : isSubDispoArg (some "-i") = false := by decide

theorem dsA_pipe : isSubDispoArg (some "pipe:0") = false := by decide

theorem dsA_dashmap : isSubDispoArg (some "-map") = false := by decide

theorem dsA_libx : isSubDispoArg (some "libx265") = false := by decide

theorem dsA_defaultlit : isSubDispoArg (some "default") = false := by decide

theorem dsA_subriplit : isSubDispoArg (some "subrip") = false := by decide

theorem dsA_attached : isSubDispoArg (some "attached_pic") = false := by decide

theorem dsA_zero (t : String) : isSubDispoArg (some ("0:" ++ t)) = false :=
  subDispoArg_lit_miss _ _ (by decide) (by decide)

theorem dsA_cvh (t : String) : isSubDispoArg (some ("-c:v:" ++ t)) = false :=
  subDispoArg_lit_miss _ _ (by decide) (by decide)

theorem dsA_csh (t : String) : isSubDispoArg (some ("-c:s:" ++ t)) = false :=
  subDispoArg_lit_miss _ _ (by decide) (by decide)

theorem dsA_meta (t : String) : isSubDispoArg (some ("-metadata:s:s:" ++ t)) = false :=
  subDispoArg_lit_miss _ _ (by decide) (by decide)

theorem dsA_lang (t : String) : isSubDispoArg (some ("language=" ++ t)) = false :=
  subDispoArg_lit_miss _ _ (by decide) (by decide)

theorem dsA_dispV (t : String) : isSubDispoArg (some ("-disposition:v:" ++ t)) = false :=
  subDispoArg_lit_miss _ _ (by decide) (by decide)

theorem mvA_none : mapValArg none = none := rfl

theorem mvA_ffmpeg : mapValArg (some "ffmpeg") = none := by decide

theorem mvA_dashi : mapValArg (some "-i") = none := by decide

theorem mvA_pipe : mapValArg (some "pipe:0") = none := by decide

theorem mvA_dashmap : mapValArg (some "-map") = none := by decide

theorem mvA_libx : mapValArg (some "libx265") = none := by decide

theorem mvA_defaultlit : mapValArg (some "default") = none := by decide

theorem mvA_subriplit : mapValArg (some "subrip") = none := by decide

theorem mvA_attached : mapValArg (some "attached_pic") = none := by decide

theorem mvA_cvh (t : String) : mapValArg (some ("-c:v:" ++ t)) = none :=
  mapValArg_lit_miss "-c:v:" t '-' ("c:v:".data) rfl (by decide)

theorem mvA_csh (t : String) : mapValArg (some ("-c:s:" ++ t)) = none :=
  mapValArg_lit_miss "-c:s:" t '-' ("c:s:".data) rfl (by decide)

theorem mvA_meta (t : String) : mapValArg (some ("-metadata:s:s:" ++ t)) = none :=
  mapValArg_lit_miss "-metadata:s:s:" t '-' ("metadata:s:s:".data) rfl (by decide)

theorem mvA_lang (t : String) : mapValArg (some ("language=" ++ t)) = none :=
  mapValArg_lit_miss "language=" t 'l' ("anguage=".data) rfl (by decide)

theorem mvA_dispS (t : String) : mapValArg (some ("-disposition:s:" ++ t)) = none :=
  mapValArg_lit_miss "-disposition:s:" t '-' ("disposition:s:".data) rfl (by decide)

theorem mvA_dispV (t : String) : mapValArg (some ("-disposition:v:" ++ t)) = none :=
  mapValArg_lit_miss "-disposition:v:" t '-' ("disposition:v:".data) rfl (by decide)

theorem icA_none : isInputFlag none = false := rfl

theorem icA_ffmpeg : isInputFlag (some "ffmpeg") = false := by decide

theorem icA_dashi : isInputFlag (some "-i") = true := by decide

theorem icA_pipe : isInputFlag (some "pipe:0") = false := by decide

theorem icA_dashmap : isInputFlag (some "-map") = false := by decide

theorem icA_libx : isInputFlag (some "libx265") = false := by decide

theorem icA_defaultlit : isInputFlag (some "default") = false := by decide

theorem icA_subriplit : isInputFlag (some "subrip") = false := by decide

theorem icA_attached : isInputFlag (some "attached_pic") = false := by decide

theorem icA_zero (t : String) : isInputFlag (some ("0:" ++ t)) = false :=
  inputFlag_lit_miss _ _ (by decide) (by decide)

theorem icA_cvh (t : String) : isInputFlag (some ("-c:v:" ++ t)) = false :=
  inputFlag_lit_miss _ _ (by decide) (by decide)

theorem icA_csh (t : String) : isInputFlag (some ("-c:s:" ++ t)) = false :=
  inputFlag_lit_miss _ _ (by decide) (by decide)

theorem icA_meta (t : String) : isInputFlag (some ("-metadata:s:s:" ++ t)) = false :=
  inputFlag_lit_miss _ _ (by decide) (by decide)

theorem icA_lang (t : String) : isInputFlag (some ("language=" ++ t)) = false :=
  inputFlag_lit_miss _ _ (by decide) (by decide)

theorem icA_dispS (t : String) : isInputFlag (some ("-disposition:s:" ++ t)) = false :=
  inputFlag_lit_miss _ _ (by decide) (by decide)

theorem icA_dispV (t : String) : isInputFlag (some ("-disposition:v:" ++ t)) = false :=
  inputFlag_lit_miss _ _ (by decide) (by decide)

/-- `csSlots` of one embedded-subtitle segment: exactly its slot. -/
theorem csSlots_embSeg_one (p : ℕ × Stream) (h : headClean p.2.codec_name = true) :
    csSlots (embSeg p) = [(toString p.1).data] := by
  rw [embSeg]
  by_cases hd : optPyEq p.2.language DEFAULT_LANGUAGE = true
  · rw [if_pos hd]
    simp [csSlots, csSlotArg_hit, csSlotArg_clean _ h,
      csSlotArg_lit_miss "0:" _ (by decide) (by decide),
      csSlotArg_lit_miss "-metadata:s:s:" _ (by decide) (by decide),
      csSlotArg_lit_miss "language=" _ (by decide) (by decide),
      csSlotArg_lit_miss "-disposition:s:" _ (by decide) (by decide),
      show csSlotArg (some "-map") = none from by decide,
      show csSlotArg (some "default") = none from by decide]
  · rw [if_neg hd]
    simp [csSlots, csSlotArg_hit, csSlotArg_clean _ h,
      csSlotArg_lit_miss "0:" _ (by decide) (by decide),
      csSlotArg_lit_miss "-metadata:s:s:" _ (by decide) (by decide),
      csSlotArg_lit_miss "language=" _ (by decide) (by decide),
      show csSlotArg (some "-map") = none from by decide]

theorem inputSeg_cs (smap : SubtitleMap) (mn : String) (l : Option Language)
    (h : ∀ p, get_subtitle_path smap mn l = some p → headClean p = true) :
    csSlots (inputSeg smap mn l) = [] := by
  rw [inputSeg]
  cases hp : get_subtitle_path smap mn l with
  | none => simp [csSlots, csA_dashi, csA_none]
  | some p => simp [csSlots, csA_dashi, csSlotArg_clean p (h p hp)]

theorem inputSeg_cv (smap : SubtitleMap) (mn : String) (l : Option Language)
    (h : ∀ p, get_subtitle_path smap mn l = some p → headClean p = true) :
    cvSlots (inputSeg smap mn l) = [] := by
  rw [inputSeg]
  cases hp : get_subtitle_path smap mn l with
  | none => simp [cvSlots, cvA_dashi, cvA_none]
  | some p => simp [cvSlots, cvA_dashi, cvSlotArg_clean p (h p hp)]

theorem inputSeg_mv (smap : SubtitleMap) (mn : String) (l : Option Language)
    (h : ∀ p, get_subtitle_path smap mn l = some p → headClean p = true) :
    mapValues (inputSeg smap mn l) = [] := by
  rw [inputSeg]
  cases hp : get_subtitle_path smap mn l with
  | none => simp [mapValues, mvA_dashi, mvA_none]
  | some p => simp [mapValues, mvA_dashi, mapValArg_clean p (h p hp)]

theorem inputSeg_ds (smap : SubtitleMap) (mn : String) (l : Option Language)
    (h : ∀ p, get_subtitle_path smap mn l = some p → headClean p = true) :
    countSubDispo (inputSeg smap mn l) = 0 := by
  rw [inputSeg]
  cases hp : get_subtitle_path smap mn l with
  | none => simp [countSubDispo, List.countP_cons, dsA_dashi, dsA_none]
  | some p =>
    simp [countSubDispo, List.countP_cons, dsA_dashi, subDispoArg_clean p (h p hp)]

theorem inputSeg_ic (smap : SubtitleMap) (mn : String) (l : Option Language)
    (h : ∀ p, get_subtitle_path smap mn l = some p → headClean p = true) :
    countInputFlags (inputSeg smap mn l) = 1 := by
  rw [inputSeg]
  cases hp : get_subtitle_path smap mn l with
  | none => simp [countInputFlags, List.countP_cons, icA_dashi, icA_none]
  | some p =>
    simp [countInputFlags, List.countP_cons, icA_dashi, inputFlag_clean p (h p hp)]

theorem videoSeg_cs (p : ℕ × Stream) : csSlots (videoSeg p) = [] := by
  simp [videoSeg, csSlots, csA_dashmap, csA_zero, csA_cvh, csA_libx]

theorem videoSeg_cv (p : ℕ × Stream) :
    cvSlots (videoSeg p) = [(toString p.1).data] := by
  simp [videoSeg, cvSlots, cvA_dashmap, cvA_zero, cvSlotArg_hit, cvA_libx]

theorem videoSeg_mv (p : ℕ × Stream) :
    mapValues (videoSeg p) = ["0:" ++ toString p.2.index] := by
  simp [videoSeg, mapValues, mvA_dashmap, mapValArg_zero, mvA_cvh, mvA_libx]

theorem videoSeg_ds (p : ℕ × Stream) : countSubDispo (videoSeg p) = 0 := by
  simp [videoSeg, countSubDispo, List.countP_cons, dsA_dashmap, dsA_zero,
    dsA_cvh, dsA_libx]

theorem videoSeg_ic (p : ℕ × Stream) : countInputFlags (videoSeg p) = 0 := by
  simp [videoSeg, countInputFlags, List.countP_cons, icA_dashmap, icA_zero,
    icA_cvh, icA_libx]

theorem audioSeg_cs (s : Stream) : csSlots (audioSeg s) = [] := by
  simp [audioSeg, csSlots, csA_dashmap, csA_zero]

theorem audioSeg_cv (s : Stream) : cvSlots (audioSeg s) = [] := by
  simp [audioSeg, cvSlots, cvA_dashmap, cvA_zero]

theorem audioSeg_mv (s : Stream) :
    mapValues (audioSeg s) = ["0:" ++ toString s.index] := by
  simp [audioSeg, mapValues, mvA_dashmap, mapValArg_zero]

theorem audioSeg_ds (s : Stream) : countSubDispo (audioSeg s) = 0 := by
  simp [audioSeg, countSubDispo, List.countP_cons, dsA_dashmap, dsA_zero]

theorem audioSeg_ic (s : Stream) : countInputFlags (audioSeg s) = 0 := by
  simp [audioSeg, countInputFlags, List.countP_cons, icA_dashmap, icA_zero]

theorem embSeg_cv (p : ℕ × Stream) (h : headClean p.2.codec_name = true) :
    cvSlots (embSeg p) = [] := by
  rw [embSeg]
  by_cases hd : optPyEq p.2.language DEFAULT_LANGUAGE = true
  · rw [if_pos hd]
    simp [cvSlots, cvA_dashmap, cvA_zero, cvA_meta, cvA_lang, cvA_csh,
      cvSlotArg_clean _ h, cvA_dispS, cvA_defaultlit]
  · rw [if_neg hd]
    simp [cvSlots, cvA_dashmap, cvA_zero, cvA_meta, cvA_lang, cvA_csh,
      cvSlotArg_clean _ h]

theorem embSeg_mv (p : ℕ × Stream) (h : headClean p.2.codec_name = true) :
    mapValues (embSeg p) = ["0:" ++ toString p.2.index] := by
  rw [embSeg]
  by_cases hd : optPyEq p.2.language DEFAULT_LANGUAGE = true
  · rw [if_pos hd]
    simp [mapValues, mvA_dashmap, mapValArg_zero, mvA_meta, mvA_lang, mvA_csh,
      mapValArg_clean _ h, mvA_dispS, mvA_defaultlit]
  · rw [if_neg hd]
    simp [mapValues, mvA_dashmap, mapValArg_zero, mvA_meta, mvA_lang, mvA_csh,
      mapValArg_clean _ h]

theorem embSeg_ds (p : ℕ × Stream) (h : headClean p.2.codec_name = true) :
    countSubDispo (embSeg p)
      = if optPyEq p.2.language DEFAULT_LANGUAGE = true then 1 else 0 := by
  rw [embSeg]
  by_cases hd : optPyEq p.2.language DEFAULT_LANGUAGE = true
  · rw [if_pos hd, if_pos hd]
    simp [countSubDispo, List.countP_cons, dsA_dashmap, dsA_zero, dsA_meta,
      dsA_lang, dsA_csh, subDispoArg_clean _ h, subDispoArg_hit, dsA_defaultlit]
  · rw [if_neg hd, if_neg hd]
    simp [countSubDispo, List.countP_cons, dsA_dashmap, dsA_zero, dsA_meta,
      dsA_lang, dsA_csh, subDispoArg_clean _ h]

theorem embSeg_ic (p : ℕ × Stream) (h : headClean p.2.codec_name = true) :
    countInputFlags (embSeg p) = 0 := by
  rw [embSeg]
  by_cases hd : optPyEq p.2.language DEFAULT_LANGUAGE = true
  · rw [if_pos hd]
    simp [countInputFlags, List.countP_cons, icA_dashmap, icA_zero, icA_meta,
      icA_lang, icA_csh, inputFlag_clean _ h, icA_dispS, icA_defaultlit]
  · rw [if_neg hd]
    simp [countInputFlags, List.countP_cons, icA_dashmap, icA_zero, icA_meta,
      icA_lang, icA_csh, inputFlag_clean _ h]

theorem extSeg_cs (k : ℕ) (p : ℕ × Option Language) :
    csSlots (extSeg k p) = [(toString (k + p.1)).data] := by
  rw [extSeg]
  by_cases hd : optPyEq p.2 DEFAULT_LANGUAGE = true
  · rw [if_pos hd]
    simp [csSlots, csA_dashmap, csSlotArg_digitHead, csA_meta, csA_lang,
      csSlotArg_hit, csA_subriplit, csA_dispS, csA_defaultlit]
  · rw [if_neg hd]
    simp [csSlots, csA_dashmap, csSlotArg_digitHead, csA_meta, csA_lang,
      csSlotArg_hit, csA_subriplit]

theorem extSeg_cv (k : ℕ) (p : ℕ × Option Language) :
    cvSlots (extSeg k p) = [] := by
  rw [extSeg]
  by_cases hd : optPyEq p.2 DEFAULT_LANGUAGE = true
  · rw [if_pos hd]
    simp [cvSlots, cvA_dashmap, cvSlotArg_digitHead, cvA_meta, cvA_lang,
      cvA_csh, cvA_subriplit, cvA_dispS, cvA_defaultlit]
  · rw [if_neg hd]
    simp [cvSlots, cvA_dashmap, cvSlotArg_digitHead, cvA_meta, cvA_lang,
      cvA_csh, cvA_subriplit]

theorem extSeg_mv (k : ℕ) (p : ℕ × Option Language) :
    mapValues (extSeg k p) = [toString (p.1 + 1) ++ ":s"] := by
  rw [extSeg]
  by_cases hd : optPyEq p.2 DEFAULT_LANGUAGE = true
  · rw [if_pos hd]
    simp [mapValues, mvA_dashmap, mapValArg_digitHead, mvA_meta, mvA_lang,
      mvA_csh, mvA_subriplit, mvA_dispS, mvA_defaultlit]
  · rw [if_neg hd]
    simp [mapValues, mvA_dashmap, mapValArg_digitHead, mvA_meta, mvA_lang,
      mvA_csh, mvA_subriplit]

theorem extSeg_ds (k : ℕ) (p : ℕ × Option Language) :
    countSubDispo (extSeg k p)
      = if optPyEq p.2 DEFAULT_LANGUAGE = true then 1 else 0 := by
  rw [extSeg]
  by_cases hd : optPyEq p.2 DEFAULT_LANGUAGE = true
  · rw [if_pos hd, if_pos hd]
    simp [countSubDispo, List.countP_cons, dsA_dashmap, subDispoArg_digitHead,
      dsA_meta, dsA_lang, dsA_csh, dsA_subriplit, subDispoArg_hit, dsA_defaultlit]
  · rw [if_neg hd, if_neg hd]
    simp [countSubDispo, List.countP_cons, dsA_dashmap, subDispoArg_digitHead,
      dsA_meta, dsA_lang, dsA_csh, dsA_subriplit]

theorem extSeg_ic (k : ℕ) (p : ℕ × Option Language) :
    countInputFlags (extSeg k p) = 0 := by
  rw [extSeg]
  by_cases hd : optPyEq p.2 DEFAULT_LANGUAGE = true
  · rw [if_pos hd]
    simp [countInputFlags, List.countP_cons, icA_dashmap, inputFlag_digitHead,
      icA_meta, icA_lang, icA_csh, icA_subriplit, icA_dispS, icA_defaultlit]
  · rw [if_neg hd]
    simp [countInputFlags, List.countP_cons, icA_dashmap, inputFlag_digitHead,
      icA_meta, icA_lang, icA_csh, icA_subriplit]

theorem picSeg_cs (v : ℕ) (p : ℕ × Stream) (h : headClean p.2.codec_name = true) :
    csSlots (picSeg v p) = [] := by
  simp [picSeg, csSlots, csA_dashmap, csA_zero, csA_cvh,
    csSlotArg_clean _ h, csA_dispV, csA_attached]

theorem picSeg_cv (v : ℕ) (p : ℕ × Stream) (h : headClean p.2.codec_name = true) :
    cvSlots (picSeg v p) = [(toString (v + p.1)).data] := by
  simp [picSeg, cvSlots, cvA_dashmap, cvA_zero, cvSlotArg_hit,
    cvSlotArg_clean _ h, cvA_dispV, cvA_attached]

theorem picSeg_mv (v : ℕ) (p : ℕ × Stream) (h : headClean p.2.codec_name = true) :
    mapValues (picSeg v p) = ["0:" ++ toString p.2.index] := by
  simp [picSeg, mapValues, mvA_dashmap, mapValArg_zero, mvA_cvh,
    mapValArg_clean _ h, mvA_dispV, mvA_attached]

theorem picSeg_ds (v : ℕ) (p : ℕ × Stream) (h : headClean p.2.codec_name = true) :
    countSubDispo (picSeg v p) = 0 := by
  simp [picSeg, countSubDispo, List.countP_cons, dsA_dashmap, dsA_zero, dsA_cvh,
    subDispoArg_clean _ h, dsA_dispV, dsA_attached]

theorem picSeg_ic (v : ℕ) (p : ℕ × Stream) (h : headClean p.2.codec_name = true) :
    countInputFlags (picSeg v p) = 0 := by
  simp [picSeg, countInputFlags, List.countP_cons, icA_dashmap, icA_zero, icA_cvh,
    inputFlag_clean _ h, icA_dispV, icA_attached]

/-- Shorthand for the path-cleanliness hypothesis on a missing list. -/
def cleanPaths (smap : SubtitleMap) (mn : String)
    (missing : List (Option Language)) : Prop :=
  ∀ l ∈ missing, ∀ p, get_subtitle_path smap mn l = some p → headClean p = true

theorem cleanPaths_tail {smap : SubtitleMap} {mn : String}
    {l : Option Language} {rest : List (Option Language)}
    (h : cleanPaths smap mn (l :: rest)) : cleanPaths smap mn rest :=
  fun l' hl' p hp => h l' (List.mem_cons_of_mem _ hl') p hp

theorem cleanPaths_head {smap : SubtitleMap} {mn : String}
    {l : Option Language} {rest : List (Option Language)}
    (h : cleanPaths smap mn (l :: rest)) :
    ∀ p, get_subtitle_path smap mn l = some p → headClean p = true :=
  fun p hp => h l (List.mem_cons_self _ _) p hp

theorem inputs_cs (smap : SubtitleMap) (mn : String)
    (missing : List (Option Language)) (h : cleanPaths smap mn missing) :
    csSlots (missing.flatMap (inputSeg smap mn)) = [] := by
  induction missing with
  | nil => rfl
  | cons l rest ih =>
    rw [List.flatMap_cons, csSlots_append, inputSeg_cs smap mn l (cleanPaths_head h),
      ih (cleanPaths_tail h)]
    rfl

theorem inputs_cv (smap : SubtitleMap) (mn : String)
    (missing : List (Option Language)) (h : cleanPaths smap mn missing) :
    cvSlots (missing.flatMap (inputSeg smap mn)) = [] := by
  induction missing with
  | nil => rfl
  | cons l rest ih =>
    rw [List.flatMap_cons, cvSlots_append, inputSeg_cv smap mn l (cleanPaths_head h),
      ih (cleanPaths_tail h)]
    rfl

theorem inputs_mv (smap : SubtitleMap) (mn : String)
    (missing : List (Option Language)) (h : cleanPaths smap mn missing) :
    mapValues (missing.flatMap (inputSeg smap mn)) = [] := by
  induction missing with
  | nil => rfl
  | cons l rest ih =>
    rw [List.flatMap_cons, mapValues_append, inputSeg_mv smap mn l (cleanPaths_head h),
      ih (cleanPaths_tail h)]
    rfl

theorem inputs_ds (smap : SubtitleMap) (mn : String)
    (missing : List (Option Language)) (h : cleanPaths smap mn missing) :
    countSubDispo (missing.flatMap (inputSeg smap mn)) = 0 := by
  induction missing with
  | nil => rfl
  | cons l rest ih =>
    rw [List.flatMap_cons, countSubDispo_append,
      inputSeg_ds smap mn l (cleanPaths_head h), ih (cleanPaths_tail h)]

theorem inputs_ic (smap : SubtitleMap) (mn : String)
    (missing : List (Option Language)) (h : cleanPaths smap mn missing) :
    countInputFlags (missing.flatMap (inputSeg smap mn)) = missing.length := by
  induction missing with
  | nil => rfl
  | cons l rest ih =>
    rw [List.flatMap_cons, countInputFlags_append,
      inputSeg_ic smap mn l (cleanPaths_head h), ih (cleanPaths_tail h),
      List.length_cons]
    omega

theorem videos_cs (l : List Stream) (n : ℕ) :
    csSlots ((List.enumFrom n l).flatMap videoSeg) = [] := by
  induction l generalizing n with
  | nil => rfl
  | cons s rest ih =>
    rw [enumFrom_cons', List.flatMap_cons, csSlots_append, videoSeg_cs, ih]
    rfl

theorem videos_cv (l : List Stream) (n : ℕ) :
    cvSlots ((List.enumFrom n l).flatMap videoSeg)
      = (List.range' n l.length).map (fun i => (toString i).data) := by
  induction l generalizing n with
  | nil => rfl
  | cons s rest ih =>
    rw [enumFrom_cons', List.flatMap_cons, cvSlots_append, videoSeg_cv, ih,
      List.length_cons, List.range'_succ, List.map_cons]
    rfl

theorem videos_mv (l : List Stream) (n : ℕ) :
    mapValues ((List.enumFrom n l).flatMap videoSeg)
      = l.map (fun s => "0:" ++ toString s.index) := by
  induction l generalizing n with
  | nil => rfl
  | cons s rest ih =>
    rw [enumFrom_cons', List.flatMap_cons, mapValues_append, videoSeg_mv, ih,
      List.map_cons]
    rfl

theorem videos_ds (l : List Stream) (n : ℕ) :
    countSubDispo ((List.enumFrom n l).flatMap videoSeg) = 0 := by
  induction l generalizing n with
  | nil => rfl
  | cons s rest ih =>
    rw [enumFrom_cons', List.flatMap_cons, countSubDispo_append, videoSeg_ds, ih]

theorem videos_ic (l : List Stream) (n : ℕ) :
    countInputFlags ((List.enumFrom n l).flatMap videoSeg) = 0 := by
  induction l generalizing n with
  | nil => rfl
  | cons s rest ih =>
    rw [enumFrom_cons', List.flatMap_cons, countInputFlags_append, videoSeg_ic, ih]

theorem audios_cs (l : List Stream) : csSlots (l.flatMap audioSeg) = [] := by
  induction l with
  | nil => rfl
  | cons s rest ih =>
    rw [List.flatMap_cons, csSlots_append, audioSeg_cs, ih]
    rfl

theorem audios_cv (l : List Stream) : cvSlots (l.flatMap audioSeg) = [] := by
  induction l with
  | nil => rfl
  | cons s rest ih =>
    rw [List.flatMap_cons, cvSlots_append, audioSeg_cv, ih]
    rfl

theorem audios_mv (l : List Stream) :
    mapValues (l.flatMap audioSeg) = l.map (fun s => "0:" ++ toString s.index) := by
  induction l with
  | nil => rfl
  | cons s rest ih =>
    rw [List.flatMap_cons, mapValues_append, audioSeg_mv, ih, List.map_cons]
    rfl

theorem audios_ds (l : List Stream) : countSubDispo (l.flatMap audioSeg) = 0 := by
  induction l with
  | nil => rfl
  | cons s rest ih =>
    rw [List.flatMap_cons, countSubDispo_append, audioSeg_ds, ih]

theorem audios_ic (l : List Stream) : countInputFlags (l.flatMap audioSeg) = 0 := by
  induction l with
  | nil => rfl
  | cons s rest ih =>
    rw [List.flatMap_cons, countInputFlags_append, audioSeg_ic, ih]

theorem valid_tail {s : Stream} {rest : List Stream}
    (hv : ∀ x ∈ s :: rest, x.is_valid_subtitle = true) :
    ∀ x ∈ rest, x.is_valid_subtitle = true :=
  fun x hx => hv x (List.mem_cons_of_mem _ hx)

theorem valid_head {s : Stream} {rest : List Stream}
    (hv : ∀ x ∈ s :: rest, x.is_valid_subtitle = true) :
    headClean s.codec_name = true :=
  valid_codec_clean s (hv s (List.mem_cons_self _ _))

theorem embs_cs (l : List Stream) (n : ℕ)
    (hv : ∀ x ∈ l, x.is_valid_subtitle = true) :
    csSlots ((List.enumFrom n l).flatMap embSeg)
      = (List.range' n l.length).map (fun i => (toString i).data) := by
  induction l generalizing n with
  | nil => rfl
  | cons s rest ih =>
    rw [enumFrom_cons', List.flatMap_cons, csSlots_append,
      csSlots_embSeg_one (n, s) (valid_head hv), ih _ (valid_tail hv),
      List.length_cons, List.range'_succ, List.map_cons]
    rfl

theorem embs_cv (l : List Stream) (n : ℕ)
    (hv : ∀ x ∈ l, x.is_valid_subtitle = true) :
    cvSlots ((List.enumFrom n l).flatMap embSeg) = [] := by
  induction l generalizing n with
  | nil => rfl
  | cons s rest ih =>
    rw [enumFrom_cons', List.flatMap_cons, cvSlots_append,
      embSeg_cv (n, s) (valid_head hv), ih _ (valid_tail hv)]
    rfl

theorem embs_mv (l : List Stream) (n : ℕ)
    (hv : ∀ x ∈ l, x.is_valid_subtitle = true) :
    mapValues ((List.enumFrom n l).flatMap embSeg)
      = l.map (fun s => "0:" ++ toString s.index) := by
  induction l generalizing n with
  | nil => rfl
  | cons s rest ih =>
    rw [enumFrom_cons', List.flatMap_cons, mapValues_append,
      embSeg_mv (n, s) (valid_head hv), ih _ (valid_tail hv), List.map_cons]
    rfl

theorem embs_ds (l : List Stream) (n : ℕ)
    (hv : ∀ x ∈ l, x.is_valid_subtitle = true) :
    countSubDispo ((List.enumFrom n l).flatMap embSeg)
      = l.countP (fun s => optPyEq s.language DEFAULT_LANGUAGE) := by
  induction l generalizing n with
  | nil => rfl
  | cons s rest ih =>
    rw [enumFrom_cons', List.flatMap_cons, countSubDispo_append,
      embSeg_ds (n, s) (valid_head hv), ih _ (valid_tail hv), List.countP_cons]
    by_cases hd : optPyEq s.language DEFAULT_LANGUAGE = true <;> simp [hd] <;> omega

theorem embs_ic (l : List Stream) (n : ℕ)
    (hv : ∀ x ∈ l, x.is_valid_subtitle = true) :
    countInputFlags ((List.enumFrom n l).flatMap embSeg) = 0 := by
  induction l generalizing n with
  | nil => rfl
  | cons s rest ih =>
    rw [enumFrom_cons', List.flatMap_cons, countInputFlags_append,
      embSeg_ic (n, s) (valid_head hv), ih _ (valid_tail hv)]

theorem exts_cs (missing : List (Option Language)) (k n : ℕ) :
    csSlots ((List.enumFrom n missing).flatMap (extSeg k))
      = (List.range' n missing.length).map (fun i => (toString (k + i)).data) := by
  induction missing generalizing n with
  | nil => rfl
  | cons l rest ih =>
    rw [enumFrom_cons', List.flatMap_cons, csSlots_append, extSeg_cs, ih,
      List.length_cons, List.range'_succ, List.map_cons]
    rfl

theorem exts_cv (missing : List (Option Language)) (k n : ℕ) :
    cvSlots ((List.enumFrom n missing).flatMap (extSeg k)) = [] := by
  induction missing generalizing n with
  | nil => rfl
  | cons l rest ih =>
    rw [enumFrom_cons', List.flatMap_cons, cvSlots_append, extSeg_cv, ih]
    rfl

theorem exts_mv (missing : List (Option Language)) (k n : ℕ) :
    mapValues ((List.enumFrom n missing).flatMap (extSeg k))
      = (List.range' n missing.length).map (fun i => toString (i + 1) ++ ":s") := by
  induction missing generalizing n with
  | nil => rfl
  | cons l rest ih =>
    rw [enumFrom_cons', List.flatMap_cons, mapValues_append, extSeg_mv, ih,
      List.length_cons, List.range'_succ, List.map_cons]
    rfl

theorem exts_ds (missing : List (Option Language)) (k n : ℕ) :
    countSubDispo ((List.enumFrom n missing).flatMap (extSeg k))
      = missing.countP (fun x => optPyEq x DEFAULT_LANGUAGE) := by
  induction missing generalizing n with
  | nil => rfl
  | cons l rest ih =>
    rw [enumFrom_cons', List.flatMap_cons, countSubDispo_append, extSeg_ds, ih,
      List.countP_cons]
    by_cases hd : optPyEq l DEFAULT_LANGUAGE = true <;> simp [hd] <;> omega

theorem exts_ic (missing : List (Option Language)) (k n : ℕ) :
    countInputFlags ((List.enumFrom n missing).flatMap (extSeg k)) = 0 := by
  induction missing generalizing n with
  | nil => rfl
  | cons l rest ih =>
    rw [enumFrom_cons', List.flatMap_cons, countInputFlags_append, extSeg_ic, ih]

theorem clean_tail {s : Stream} {rest : List Stream}
    (h : ∀ x ∈ s :: rest, headClean x.codec_name = true) :
    ∀ x ∈ rest, headClean x.codec_name = true :=
  fun x hx => h x (List.mem_cons_of_mem _ hx)

theorem clean_head {s : Stream} {rest : List Stream}
    (h : ∀ x ∈ s :: rest, headClean x.codec_name = true) :
    headClean s.codec_name = true :=
  h s (List.mem_cons_self _ _)

theorem pics_cs (l : List Stream) (v n : ℕ)
    (h : ∀ x ∈ l, headClean x.codec_name = true) :
    csSlots ((List.enumFrom n l).flatMap (picSeg v)) = [] := by
  induction l generalizing n with
  | nil => rfl
  | cons s rest ih =>
    rw [enumFrom_cons', List.flatMap_cons, csSlots_append,
      picSeg_cs v (n, s) (clean_head h), ih _ (clean_tail h)]
    rfl

theorem pics_cv (l : List Stream) (v n : ℕ)
    (h : ∀ x ∈ l, headClean x.codec_name = true) :
    cvSlots ((List.enumFrom n l).flatMap (picSeg v))
      = (List.range' n l.length).map (fun i => (toString (v + i)).data) := by
  induction l generalizing n with
  | nil => rfl
  | cons s rest ih =>
    rw [enumFrom_cons', List.flatMap_cons, cvSlots_append,
      picSeg_cv v (n, s) (clean_head h), ih _ (clean_tail h),
      List.length_cons, List.range'_succ, List.map_cons]
    rfl

theorem pics_mv (l : List Stream) (v n : ℕ)
    (h : ∀ x ∈ l, headClean x.codec_name = true) :
    mapValues ((List.enumFrom n l).flatMap (picSeg v))
      = l.map (fun s => "0:" ++ toString s.index) := by
  induction l generalizing n with
  | nil => rfl
  | cons s rest ih =>
    rw [enumFrom_cons', List.flatMap_cons, mapValues_append,
      picSeg_mv v (n, s) (clean_head h), ih _ (clean_tail h), List.map_cons]
    rfl

theorem pics_ds (l : List Stream) (v n : ℕ)
    (h : ∀ x ∈ l, headClean x.codec_name = true) :
    countSubDispo ((List.enumFrom n l).flatMap (picSeg v)) = 0 := by
  induction l generalizing n with
  | nil => rfl
  | cons s rest ih =>
    rw [enumFrom_cons', List.flatMap_cons, countSubDispo_append,
      picSeg_ds v (n, s) (clean_head h), ih _ (clean_tail h)]

theorem pics_ic (l : List Stream) (v n : ℕ)
    (h : ∀ x ∈ l, headClean x.codec_name = true) :
    countInputFlags ((List.enumFrom n l).flatMap (picSeg v)) = 0 := by
  induction l generalizing n with
  | nil => rfl
  | cons s rest ih =>
    rw [enumFrom_cons', List.flatMap_cons, countInputFlags_append,
      picSeg_ic v (n, s) (clean_head h), ih _ (clean_tail h)]

theorem enum_eq_enumFrom (l : List α) : l.enum = List.enumFrom 0 l := rfl

theorem subtitles_valid (movie : Movie) :
    ∀ x ∈ movie.subtitles, x.is_valid_subtitle = true :=
  fun _ hx => List.of_mem_filter hx

theorem combineRanges (k m : ℕ) (f : ℕ → List Char) :
    (List.range' 0 k).map f ++ (List.range' 0 m).map (fun i => f (k + i))
      = (List.range (k + m)).map f := by
  rw [List.range_eq_range']
  have h1 : (List.range' 0 m).map (fun i => f (k + i))
      = (List.range' k m).map f := by
    rw [List.range'_eq_map_range, List.range'_eq_map_range, List.map_map,
      List.map_map]
    congr 1
    funext i
    simp
  rw [h1, ← List.map_append]
  congr 1
  have := List.range'_append 0 k m 1
  rw [Nat.add_comm m k] at this
  simpa using this

/-- The program's equality is symmetric. -/
theorem optPyEq_symm (a b : Option Language) (h : optPyEq a b = true) :
    optPyEq b a = true := by
  cases a <;> cases b <;> simp_all [optPyEq, Language.pyEq]

/-- The program's equality is transitive (hash equality is). -/
theorem optPyEq_trans (a b c : Option Language) (h1 : optPyEq a b = true)
    (h2 : optPyEq b c = true) : optPyEq a c = true := by
  cases a <;> cases b <;> cases c <;> simp_all [optPyEq, Language.pyEq]

/-- A list whose members are pairwise inequal contains at most one
member equal to any given value. -/
theorem countP_le_one_of_pairwise (l : List (Option Language)) (d : Option Language)
    (h : List.Pairwise (fun a b => optPyEq a b = false) l) :
    l.countP (fun x => optPyEq x d) ≤ 1 := by
  induction l with
  | nil => simp
  | cons a rest ih =>
    rw [List.pairwise_cons] at h
    rw [List.countP_cons]
    by_cases ha : optPyEq a d = true
    · have hz : rest.countP (fun x => optPyEq x d) = 0 := by
        rw [List.countP_eq_zero]
        intro b hb hbd
        have hab : optPyEq a b = true :=
          optPyEq_trans a d b ha (optPyEq_symm b d hbd)
        rw [h.1 b hb] at hab
        exact Bool.false_ne_true hab
      simp [ha, hz]
    · have ha' : optPyEq a d = false := by simpa using ha
      simpa [ha'] using ih h.2

/-- When an embedded subtitle stream carries the default language, the
Gap Analyzer filters the default language out of the missing list, so
no external candidate with the default language survives. -/
theorem missing_default_zero (movie : Movie) (subtitle_map : SubtitleMap)
    (s : Stream) (hs : s ∈ movie.subtitles)
    (hd : optPyEq s.language DEFAULT_LANGUAGE = true) :
    (missing_languages movie subtitle_map).countP
      (fun x => optPyEq x DEFAULT_LANGUAGE) = 0 := by
  rw [List.countP_eq_zero]
  intro l hl hld
  simp only [missing_languages, List.mem_filter, Bool.not_eq_true',
    List.any_eq_false, existing_languages, List.mem_map] at hl
  have hne := hl.2 s.language ⟨s, hs, rfl⟩
  have hsl : optPyEq s.language l = true :=
    optPyEq_trans _ _ _ hd (optPyEq_symm _ _ hld)
  exact hne hsl

/-- The subtitle codec slots of the full command: `0 .. k-1` for the
embedded subtitles followed by `k .. k+m-1` for the external ones. -/
theorem buildCommand_cs (movie : Movie) (missing : List (Option Language))
    (subtitle_map : SubtitleMap) (output_path : String)
    (hpaths : cleanPaths subtitle_map movie.name missing)
    (hpics : ∀ x ∈ attached_pics movie, headClean x.codec_name = true)
    (hout : headClean output_path = true) :
    csSlots (buildCommand movie missing subtitle_map output_path)
      = (List.range (movie.subtitles.length + missing.length)).map
          (fun i => (toString i).data) := by
  rw [buildCommand, enum_eq_enumFrom (video_streams movie),
    enum_eq_enumFrom movie.subtitles, enum_eq_enumFrom missing,
    enum_eq_enumFrom (attached_pics movie)]
  rw [csSlots_append, csSlots_append, csSlots_append, csSlots_append,
    csSlots_append, csSlots_append, csSlots_append]
  rw [inputs_cs _ _ _ hpaths, videos_cs, audios_cs,
    embs_cs _ _ (subtitles_valid movie), exts_cs, pics_cs _ _ _ hpics]
  rw [show csSlots [some "ffmpeg", some "-i", some "pipe:0"] = [] from by decide]
  rw [show csSlots [some output_path] = [] from by
    simp [csSlots, csSlotArg_clean output_path hout]]
  simp only [List.nil_append, List.append_nil]
  exact combineRanges _ _ _

/-- The video codec slots of the full command: `0 .. v-1` for the
plain video streams followed by `v .. v+p-1` for the attached
pictures. -/
theorem buildCommand_cv (movie : Movie) (missing : List (Option Language))
    (subtitle_map : SubtitleMap) (output_path : String)
    (hpaths : cleanPaths subtitle_map movie.name missing)
    (hpics : ∀ x ∈ attached_pics movie, headClean x.codec_name = true)
    (hout : headClean output_path = true) :
    cvSlots (buildCommand movie missing subtitle_map output_path)
      = (List.range ((video_streams movie).length + (attached_pics movie).length)).map
          (fun i => (toString i).data) := by
  rw [buildCommand, enum_eq_enumFrom (video_streams movie),
    enum_eq_enumFrom movie.subtitles, enum_eq_enumFrom missing,
    enum_eq_enumFrom (attached_pics movie)]
  rw [cvSlots_append, cvSlots_append, cvSlots_append, cvSlots_append,
    cvSlots_append, cvSlots_append, cvSlots_append]
  rw [inputs_cv _ _ _ hpaths, videos_cv, audios_cv,
    embs_cv _ _ (subtitles_valid movie), exts_cv, pics_cv _ _ _ hpics]
  rw [show cvSlots [some "ffmpeg", some "-i", some "pipe:0"] = [] from by decide]
  rw [show cvSlots [some output_path] = [] from by
    simp [cvSlots, cvSlotArg_clean output_path hout]]
  simp only [List.nil_append, List.append_nil]
  exact combineRanges _ _ _

/-- The stream-mapping directives of the full command, in emission
order: plain video, audio, embedded subtitles (each by container
index), external inputs, attached pictures. -/
theorem buildCommand_mv (movie : Movie) (missing : List (Option Language))
    (subtitle_map : SubtitleMap) (output_path : String)
    (hpaths : cleanPaths subtitle_map movie.name missing)
    (hpics : ∀ x ∈ attached_pics movie, headClean x.codec_name = true)
    (hout : headClean output_path = true) :
    mapValues (buildCommand movie missing subtitle_map output_path)
      = (video_streams movie).map (fun s => "0:" ++ toString s.index)
        ++ (audio_streams movie).map (fun s => "0:" ++ toString s.index)
        ++ movie.subtitles.map (fun s => "0:" ++ toString s.index)
        ++ (List.range missing.length).map (fun i => toString (i + 1) ++ ":s")
        ++ (attached_pics movie).map (fun s => "0:" ++ toString s.index) := by
  rw [buildCommand, enum_eq_enumFrom (video_streams movie),
    enum_eq_enumFrom movie.subtitles, enum_eq_enumFrom missing,
    enum_eq_enumFrom (attached_pics movie)]
  rw [mapValues_append, mapValues_append, mapValues_append, mapValues_append,
    mapValues_append, mapValues_append, mapValues_append]
  rw [inputs_mv _ _ _ hpaths, videos_mv, audios_mv,
    embs_mv _ _ (subtitles_valid movie), exts_mv, pics_mv _ _ _ hpics]
  rw [show mapValues [some "ffmpeg", some "-i", some "pipe:0"] = [] from by decide]
  rw [show mapValues [some output_path] = [] from by
    simp [mapValues, mapValArg_clean output_path hout]]
  rw [List.range_eq_range']
  simp [List.append_assoc]

/-- The number of default-subtitle disposition directives in the full
command: one per embedded stream whose raw language equals the
default, plus one per missing language equal to the default. -/
theorem buildCommand_ds (movie : Movie) (missing : List (Option Language))
    (subtitle_map : SubtitleMap) (output_path : String)
    (hpaths : cleanPaths subtitle_map movie.name missing)
    (hpics : ∀ x ∈ attached_pics movie, headClean x.codec_name = true)
    (hout : headClean output_path = true) :
    countSubDispo (buildCommand movie missing subtitle_map output_path)
      = movie.subtitles.countP (fun s => optPyEq s.language DEFAULT_LANGUAGE)
        + missing.countP (fun x => optPyEq x DEFAULT_LANGUAGE) := by
  rw [buildCommand, enum_eq_enumFrom (video_streams movie),
    enum_eq_enumFrom movie.subtitles, enum_eq_enumFrom missing,
    enum_eq_enumFrom (attached_pics movie)]
  rw [countSubDispo_append, countSubDispo_append, countSubDispo_append,
    countSubDispo_append, countSubDispo_append, countSubDispo_append,
    countSubDispo_append]
  rw [inputs_ds _ _ _ hpaths, videos_ds, audios_ds,
    embs_ds _ _ (subtitles_valid movie), exts_ds, pics_ds _ _ _ hpics]
  rw [show countSubDispo [some "ffmpeg", some "-i", some "pipe:0"] = 0 from by decide]
  rw [show countSubDispo [some output_path] = 0 from by
    simp [countSubDispo, List.countP_cons, subDispoArg_clean output_path hout]]
  omega

/-- The number of `-i` input directives in the full command: the
primary pipe plus one per missing language. -/
theorem buildCommand_ic (movie : Movie) (missing : List (Option Language))
    (subtitle_map : SubtitleMap) (output_path : String)
    (hpaths : cleanPaths subtitle_map movie.name missing)
    (hpics : ∀ x ∈ attached_pics movie, headClean x.codec_name = true)
    (hout : headClean output_path = true) :
    countInputFlags (buildCommand movie missing subtitle_map output_path)
      = 1 + missing.length := by
  rw [buildCommand, enum_eq_enumFrom (video_streams movie),
    enum_eq_enumFrom movie.subtitles, enum_eq_enumFrom missing,
    enum_eq_enumFrom (attached_pics movie)]
  rw [countInputFlags_append, countInputFlags_append, countInputFlags_append,
    countInputFlags_append, countInputFlags_append, countInputFlags_append,
    countInputFlags_append]
  rw [inputs_ic _ _ _ hpaths, videos_ic, audios_ic,
    embs_ic _ _ (subtitles_valid movie), exts_ic, pics_ic _ _ _ hpics]
  rw [show countInputFlags [some "ffmpeg", some "-i", some "pipe:0"] = 1 from by decide]
  rw [show countInputFlags [some output_path] = 0 from by
    simp [countInputFlags, List.countP_cons, inputFlag_clean output_path hout]]
  omega

/-- The Japanese `Language` value. -/
def japanese : Language := mkLanguage ⟨"ja", "jpn", "jpn", "Japanese"⟩

/-- The French `Language` value. -/
def french : Language := mkLanguage ⟨"fr", "fra", "fre", "French"⟩

/-- The German `Language` value. -/
def german : Language := mkLanguage ⟨"de", "deu", "ger", "German"⟩

/-- A movie with two embedded valid subtitle streams. -/
def movieY : Movie :=
  ⟨"Y", [⟨0, "subrip", CodecType.Subtitle, none, false⟩,
         ⟨1, "ass", CodecType.Subtitle, some japanese, false⟩]⟩

/-- Three missing languages for `movieY`. -/
def missingY : List (Option Language) := [some english, some french, some german]

/-- A movie with two embedded English subtitle streams. -/
def movieZ : Movie :=
  ⟨"Z", [⟨0, "subrip", CodecType.Subtitle, some english, false⟩,
         ⟨1, "ass", CodecType.Subtitle, some english, false⟩]⟩

/-- A movie with a single plain video stream. -/
def movieV : Movie := ⟨"V", [⟨0, "h264", CodecType.Video, none, false⟩]⟩

/-- A movie with one stream of every category. -/
def movieQ : Movie :=
  ⟨"Q", [⟨0, "h264", CodecType.Video, none, false⟩,
         ⟨1, "aac", CodecType.Audio, some english, false⟩,
         ⟨2, "subrip", CodecType.Subtitle, some english, false⟩,
         ⟨3, "mjpeg", CodecType.Video, none, true⟩]⟩

/-- One missing language for `movieQ`. -/
def missingQ : List (Option Language) := [some japanese]

/-- C3: the external-subtitle directives are placed at output subtitle
slots `k .. k+m-1` (contiguous, in the Gap Analyzer's order) after the
embedded subtitles' slots `0 .. k-1`: reading the `-c:s:N` slot
numbers off the emitted command yields `0 .. k+m-1` in order. -/
theorem claim_C3_contiguous_slots (movie : Movie)
    (missing : List (Option Language)) (subtitle_map : SubtitleMap)
    (output_path : String)
    (hclean : cleanPlan movie subtitle_map missing output_path) :
    csSlots (buildCommand movie missing subtitle_map output_path)
      = (List.range (movie.subtitles.length + missing.length)).map
          (fun i => (toString i).data) := by
  obtain ⟨hout, hpics, hpaths⟩ := hclean
  exact buildCommand_cs movie missing subtitle_map output_path hpaths hpics hout

/-- Witness for C3 at two embedded subtitles and three missing
languages: the subtitle slots read `0 1 2 3 4`, so the new slots are
`2, 3, 4`. -/
theorem claim_C3_witness :
    (csSlots (buildCommand movieY missingY [] "out")
      = (List.range (movieY.subtitles.length + missingY.length)).map
          (fun i => (toString i).data))
    ∧ csSlots (buildCommand movieY missingY [] "out")
      = [['0'], ['1'], ['2'], ['3'], ['4']] :=
  ⟨claim_C3_contiguous_slots movieY missingY [] "out" (by decide), by decide⟩

/-- C4: the mux directives are emitted in the order video (non
attached), audio, embedded valid subtitles, external subtitles,
attached pictures, each group preserving source order and referencing
the source container index verbatim; the attached pictures take the
output video slots following the plain video streams. -/
theorem claim_C4_directive_order (movie : Movie)
    (missing : List (Option Language)) (subtitle_map : SubtitleMap)
    (output_path : String)
    (hclean : cleanPlan movie subtitle_map missing output_path) :
    mapValues (buildCommand movie missing subtitle_map output_path)
      = (video_streams movie).map (fun s => "0:" ++ toString s.index)
        ++ (audio_streams movie).map (fun s => "0:" ++ toString s.index)
        ++ movie.subtitles.map (fun s => "0:" ++ toString s.index)
        ++ (List.range missing.length).map (fun i => toString (i + 1) ++ ":s")
        ++ (attached_pics movie).map (fun s => "0:" ++ toString s.index)
    ∧ cvSlots (buildCommand movie missing subtitle_map output_path)
      = (List.range ((video_streams movie).length + (attached_pics movie).length)).map
          (fun i => (toString i).data) := by
  obtain ⟨hout, hpics, hpaths⟩ := hclean
  exact ⟨buildCommand_mv movie missing subtitle_map output_path hpaths hpics hout,
    buildCommand_cv movie missing subtitle_map output_path hpaths hpics hout⟩

/-- Witness for C4 at a movie with one stream of every category. -/
theorem claim_C4_witness :
    (mapValues (buildCommand movieQ missingQ [] "out")
      = (video_streams movieQ).map (fun s => "0:" ++ toString s.index)
        ++ (audio_streams movieQ).map (fun s => "0:" ++ toString s.index)
        ++ movieQ.subtitles.map (fun s => "0:" ++ toString s.index)
        ++ (List.range missingQ.length).map (fun i => toString (i + 1) ++ ":s")
        ++ (attached_pics movieQ).map (fun s => "0:" ++ toString s.index))
    ∧ cvSlots (buildCommand movieQ missingQ [] "out")
      = (List.range ((video_streams movieQ).length + (attached_pics movieQ).length)).map
          (fun i => (toString i).data) :=
  claim_C4_directive_order movieQ missingQ [] "out" (by decide)

/-- Counterexample to C1 as stated: a movie with TWO embedded
default-language (English) subtitle streams gets TWO default
disposition directives, not exactly one, although the default language
appears among the embedded subtitles. -/
theorem claim_C1_counterexample :
    (movieZ.subtitles.any (fun s => optPyEq s.language DEFAULT_LANGUAGE)) = true
    ∧ countSubDispo (analyse_movie movieZ [] "out") ≠ 1 := by
  decide

/-- C1 (amended): the emitted plan carries one default-disposition
directive per embedded valid subtitle stream whose raw language equals
the default, plus at most one for an external candidate; whenever some
embedded stream matches the default, the default language is filtered
out of the missing list, so the flag is never on an external directive
(the embedded match wins); and whenever the default language appears
among the embedded subtitles or the resolved external candidates, at
least one directive carries the flag.  Exactly one directive results
when exactly one embedded stream matches, or when none does and the
default is among the missing languages. -/
theorem claim_C1_default_disposition (movie : Movie)
    (subs : List ExternalSubtitle) (subtitle_map : SubtitleMap)
    (output_path : String)
    (hmap : subtitle_map = build_subtitle_map subs)
    (hclean : cleanPlan movie subtitle_map
      (missing_languages movie subtitle_map) output_path) :
    countSubDispo (analyse_movie movie subtitle_map output_path)
      = movie.subtitles.countP (fun s => optPyEq s.language DEFAULT_LANGUAGE)
        + (missing_languages movie subtitle_map).countP
            (fun x => optPyEq x DEFAULT_LANGUAGE)
    ∧ (missing_languages movie subtitle_map).countP
        (fun x => optPyEq x DEFAULT_LANGUAGE) ≤ 1
    ∧ (∀ s ∈ movie.subtitles, optPyEq s.language DEFAULT_LANGUAGE = true →
        (missing_languages movie subtitle_map).countP
          (fun x => optPyEq x DEFAULT_LANGUAGE) = 0)
    ∧ (((∃ s ∈ movie.subtitles, optPyEq s.language DEFAULT_LANGUAGE = true) ∨
        (∃ l ∈ missing_languages movie subtitle_map,
          optPyEq l DEFAULT_LANGUAGE = true)) →
        1 ≤ countSubDispo (analyse_movie movie subtitle_map output_path)) := by
  obtain ⟨hout, hpics, hpaths⟩ := hclean
  have hds : countSubDispo (analyse_movie movie subtitle_map output_path)
      = movie.subtitles.countP (fun s => optPyEq s.language DEFAULT_LANGUAGE)
        + (missing_languages movie subtitle_map).countP
            (fun x => optPyEq x DEFAULT_LANGUAGE) := by
    rw [analyse_movie]
    exact buildCommand_ds movie _ subtitle_map output_path hpaths hpics hout
  refine ⟨hds, ?_, ?_, ?_⟩
  · subst hmap
    exact countP_le_one_of_pairwise _ _ (missing_pairwise movie subs)
  · intro s hs hd
    exact missing_default_zero movie subtitle_map s hs hd
  · rintro (⟨s, hs, hd⟩ | ⟨l, hl, hd⟩)
    · have h1 : 0 < movie.subtitles.countP
          (fun s => optPyEq s.language DEFAULT_LANGUAGE) :=
        List.countP_pos.2 ⟨s, hs, hd⟩
      omega
    · have h1 : 0 < (missing_languages movie subtitle_map).countP
          (fun x => optPyEq x DEFAULT_LANGUAGE) :=
        List.countP_pos.2 ⟨l, hl, hd⟩
      omega

/-- Witness for C1 (amended) at the concrete movie and catalog: one
untagged embedded subtitle, English resolved externally. -/
theorem claim_C1_witness :
    countSubDispo (analyse_movie movieX catalogX "out")
      = movieX.subtitles.countP (fun s => optPyEq s.language DEFAULT_LANGUAGE)
        + (missing_languages movieX catalogX).countP
            (fun x => optPyEq x DEFAULT_LANGUAGE)
    ∧ (missing_languages movieX catalogX).countP
        (fun x => optPyEq x DEFAULT_LANGUAGE) ≤ 1
    ∧ (∀ s ∈ movieX.subtitles, optPyEq s.language DEFAULT_LANGUAGE = true →
        (missing_languages movieX catalogX).countP
          (fun x => optPyEq x DEFAULT_LANGUAGE) = 0)
    ∧ (((∃ s ∈ movieX.subtitles, optPyEq s.language DEFAULT_LANGUAGE = true) ∨
        (∃ l ∈ missing_languages movieX catalogX,
          optPyEq l DEFAULT_LANGUAGE = true)) →
        1 ≤ countSubDispo (analyse_movie movieX catalogX "out")) :=
  claim_C1_default_disposition movieX subsX catalogX "out" rfl (by decide)

/-- Counterexample to C5 as stated: with no missing languages the plan
still re-encodes every video stream with `libx265`, so it is not a
passthrough of the existing streams. -/
theorem claim_C5_counterexample :
    missing_languages movieV ([] : SubtitleMap) = []
    ∧ some "libx265" ∈ analyse_movie movieV [] "out" := by
  decide

/-- C5 (amended): with no missing languages the plan has no
external-input directive (exactly one `-i`, the primary pipe) and maps
exactly the movie's mappable streams grouped by category in source
order; but the video streams are re-encoded with the hardcoded
`libx265` rather than passed through. -/
theorem claim_C5_passthrough_amended (movie : Movie)
    (subtitle_map : SubtitleMap) (output_path : String)
    (hmiss : missing_languages movie subtitle_map = [])
    (hclean : cleanPlan movie subtitle_map
      (missing_languages movie subtitle_map) output_path) :
    countInputFlags (analyse_movie movie subtitle_map output_path) = 1
    ∧ mapValues (analyse_movie movie subtitle_map output_path)
        = (video_streams movie).map (fun s => "0:" ++ toString s.index)
          ++ (audio_streams movie).map (fun s => "0:" ++ toString s.index)
          ++ movie.subtitles.map (fun s => "0:" ++ toString s.index)
          ++ (attached_pics movie).map (fun s => "0:" ++ toString s.index)
    ∧ (video_streams movie ≠ [] →
        some "libx265" ∈ analyse_movie movie subtitle_map output_path) := by
  obtain ⟨hout, hpics, hpaths⟩ := hclean
  refine ⟨?_, ?_, ?_⟩
  · rw [analyse_movie,
      buildCommand_ic movie _ subtitle_map output_path hpaths hpics hout, hmiss]
    rfl
  · rw [analyse_movie,
      buildCommand_mv movie _ subtitle_map output_path hpaths hpics hout, hmiss]
    simp
  · intro hne
    cases hv : video_streams movie with
    | nil => exact absurd hv hne
    | cons v vs =>
      rw [analyse_movie, buildCommand]
      apply List.mem_append.2; left
      apply List.mem_append.2; left
      apply List.mem_append.2; left
      apply List.mem_append.2; left
      apply List.mem_append.2; left
      apply List.mem_append.2; right
      rw [hv, enum_eq_enumFrom, enumFrom_cons', List.flatMap_cons]
      apply List.mem_append.2; left
      rw [videoSeg]
      simp

/-- Witness for C5 (amended) at the single-video movie. -/
theorem claim_C5_witness :
    countInputFlags (analyse_movie movieV [] "out") = 1
    ∧ mapValues (analyse_movie movieV [] "out")
        = (video_streams movieV).map (fun s => "0:" ++ toString s.index)
          ++ (audio_streams movieV).map (fun s => "0:" ++ toString s.index)
          ++ movieV.subtitles.map (fun s => "0:" ++ toString s.index)
          ++ (attached_pics movieV).map (fun s => "0:" ++ toString s.index)
    ∧ (video_streams movieV ≠ [] →
        some "libx265" ∈ analyse_movie movieV [] "out") :=
  claim_C5_passthrough_amended movieV [] "out" (by decide) (by decide)

/-- Counterexample to C7 as stated: for a missing language with no
catalog path, plan construction does NOT fail: `get_subtitle_path`
returns `None` and the command silently contains the input directive
pair `['-i', None]`. -/
theorem claim_C7_counterexample :
    get_subtitle_path catalogX "X" (some japanese) = none
    ∧ buildCommand movieX [some japanese] catalogX "out"
        = [some "ffmpeg", some "-i", some "pipe:0"]
          ++ ([some "-i", none]
            ++ (buildCommand movieX [some japanese] catalogX "out").drop 5) := by
  decide

/-- C7 (amended): when a requested missing language has no catalog
path, plan construction does not raise; it silently emits an
external-input directive whose path argument is absent (`None`). -/
theorem claim_C7_unresolved_silent (movie : Movie)
    (missing : List (Option Language)) (subtitle_map : SubtitleMap)
    (output_path : String) (l : Option Language)
    (hl : l ∈ missing)
    (hpath : get_subtitle_path subtitle_map movie.name l = none) :
    ∃ pre post, buildCommand movie missing subtitle_map output_path
      = pre ++ ([some "-i", none] ++ post) := by
  rcases List.append_of_mem hl with ⟨a, b, rfl⟩
  refine ⟨[some "ffmpeg", some "-i", some "pipe:0"]
      ++ a.flatMap (inputSeg subtitle_map movie.name),
    b.flatMap (inputSeg subtitle_map movie.name)
      ++ ((video_streams movie).enum.flatMap videoSeg
      ++ ((audio_streams movie).flatMap audioSeg
      ++ (movie.subtitles.enum.flatMap embSeg
      ++ ((a ++ l :: b).enum.flatMap (extSeg movie.subtitles.length)
      ++ ((attached_pics movie).enum.flatMap (picSeg (video_streams movie).length)
      ++ [some output_path]))))), ?_⟩
  rw [buildCommand, List.flatMap_append, List.flatMap_cons]
  rw [show inputSeg subtitle_map movie.name l = [some "-i", none] from by
    rw [inputSeg, hpath]]
  simp [List.append_assoc]

/-- Witness for C7 (amended): Japanese is requested but has no path in
the catalog built from `subsX`. -/
theorem claim_C7_witness :
    ∃ pre post, buildCommand movieX [some japanese] catalogX "out"
      = pre ++ ([some "-i", none] ++ post) :=
  claim_C7_unresolved_silent movieX [some japanese] catalogX "out"
    (some japanese) (List.mem_singleton.2 rfl) (by decide)

end SubUtil
